import Mathlib

/-!
Verification development for the Content Representation Engine of the
`repr` repository.

The Python sources are embedded shallowly:

* strings are modelled as `List Char` (`Chars`); all helper operations
  (strip, lower, split, substring search) are defined from scratch to
  mirror the exact Python semantics used by the code;
* the regular expressions appearing in the sources are small and fixed,
  so each one is embedded as a hand-written scanner with the same
  left-to-right, non-overlapping `re.findall` semantics (word boundaries
  and the greedy/lazy behaviour relevant for those concrete patterns);
* Python `float` arithmetic is modelled by exact fractions (`Frac`).
  Every comparison made
  by the code on floats (`> 0.6`, `< 0.1`, `round(x, 2)`) happens far
  from any value where IEEE-754 double rounding of the operands could
  flip the outcome, so the rational model agrees with the float one on
  the inputs considered here;
* `datetime.now().year` is modelled by an explicit `currentYear : Int`
  parameter threaded into the two parsers that consult the clock;
* heterogeneous Python dicts (the `content`/`metadata` payloads of a
  result) are modelled by the JSON-like type `Val`.
-/

namespace ReprSpec

abbrev Chars := List Char

def isWsChar (c : Char) : Bool :=
  c = ' ' || c = '\n' || c = '\t' || c = '\r' || c = '\x0b' || c = '\x0c'

def isDigitChar (c : Char) : Bool := '0' ≤ c && c ≤ '9'

def isUpperChar (c : Char) : Bool := 'A' ≤ c && c ≤ 'Z'

def isLowerChar (c : Char) : Bool := 'a' ≤ c && c ≤ 'z'

def isAlphaChar (c : Char) : Bool := isUpperChar c || isLowerChar c

/-- Python's `\w` on the ASCII text handled here. -/
def isWordChar (c : Char) : Bool := isAlphaChar c || isDigitChar c || c = '_'

def lowerChar (c : Char) : Char :=
  if isUpperChar c then Char.ofNat (c.toNat + 32) else c

def lowerStr (s : Chars) : Chars := s.map lowerChar

/-- `str.lstrip()` (default whitespace). -/
def lstrip (s : Chars) : Chars := s.dropWhile (fun c => isWsChar c)

/-- `str.rstrip()` (default whitespace). -/
def rstrip (s : Chars) : Chars := (s.reverse.dropWhile (fun c => isWsChar c)).reverse

/-- `str.strip()` (default whitespace). -/
def pyStrip (s : Chars) : Chars := rstrip (lstrip s)

/-- `str.split()` with no argument: split on whitespace runs, dropping
empty fields. -/
def pyWordsAux : Chars → Chars → List Chars
  | [], acc => if acc.isEmpty then [] else [acc.reverse]
  | c :: rest, acc =>
    if isWsChar c then
      if acc.isEmpty then pyWordsAux rest [] else acc.reverse :: pyWordsAux rest []
    else pyWordsAux rest (c :: acc)

def pyWords (s : Chars) : List Chars := pyWordsAux s []

/-- Split at every character satisfying `p` (each separator character
opens a new field; callers filter empty fields afterwards, which makes
this equivalent to `re.split` on a one-or-more character class). -/
def splitAnyAux (p : Char → Bool) : Chars → Chars → List Chars
  | [], acc => [acc.reverse]
  | c :: rest, acc =>
    if p c then acc.reverse :: splitAnyAux p rest []
    else splitAnyAux p rest (c :: acc)

def splitAny (p : Char → Bool) (s : Chars) : List Chars := splitAnyAux p s []

def hasPrefix : Chars → Chars → Bool
  | [], _ => true
  | _ :: _, [] => false
  | a :: as, b :: bs => a = b && hasPrefix as bs

/-- `str.split(sep)` for a non-empty separator (leftmost,
non-overlapping); empty fields are kept, as in Python.  The recursion
consumes at least one character per step, so `fuel = s.length` never
runs out; structural recursion on the fuel keeps the definition
kernel-reducible. -/
def splitSubAux (sep : Chars) : Nat → Chars → Chars → List Chars
  | _, [], acc => [acc.reverse]
  | 0, s, acc => [acc.reverse ++ s]
  | fuel + 1, c :: rest, acc =>
    if sep ≠ [] ∧ hasPrefix sep (c :: rest) then
      acc.reverse :: splitSubAux sep fuel ((c :: rest).drop sep.length) []
    else
      splitSubAux sep fuel rest (c :: acc)

def splitSub (sep s : Chars) : List Chars := splitSubAux sep s.length s []

/-- Python `needle in hay` (substring containment). -/
def containsSub (needle hay : Chars) : Bool :=
  hay.tails.any (fun t => hasPrefix needle t)

/-- `str.count(needle)` for a non-empty needle (non-overlapping count,
scanning left to right); fuel as in `splitSubAux`. -/
def countSubAux (needle : Chars) : Nat → Chars → Nat
  | _, [] => 0
  | 0, _ => 0
  | fuel + 1, c :: rest =>
    if needle ≠ [] ∧ hasPrefix needle (c :: rest) then
      1 + countSubAux needle fuel ((c :: rest).drop needle.length)
    else
      countSubAux needle fuel rest

def countSub (needle hay : Chars) : Nat :=
  if needle = [] then hay.length + 1 else countSubAux needle hay.length hay

/-- `str.find(needle)`: index of the leftmost occurrence, `-1` if absent. -/
def findSubAux (needle : Chars) : Chars → Nat → Int
  | [], _ => if needle = [] then 0 else -1
  | c :: rest, i =>
    if hasPrefix needle (c :: rest) then (i : Int)
    else findSubAux needle rest (i + 1)

def findSub (needle hay : Chars) : Int :=
  if needle = [] then 0 else findSubAux needle hay 0

/-- Value of a digit string, as `int()` computes it on `\d+` matches. -/
def digitsToNat (s : Chars) : Nat :=
  s.foldl (fun acc c => acc * 10 + (c.toNat - 48)) 0

/-- Any digit occurs in the string.  The numeric regexes used by the
sources (`\d+(\.\d+)?%|\$\d+|\d+(\,\d{3})*` and
`\d+(\.\d+)?%|\d+(\,\d{3})*(\.\d+)?`) each contain a plain `\d+`
alternative, so `re.search` on them succeeds exactly when the string
contains a digit. -/
def hasDigit (s : Chars) : Bool := s.any (fun c => isDigitChar c)

/-- First-seen-order deduplication (`dict.fromkeys` / manual `seen`
set); fuel-structured for kernel reducibility. -/
def dedupFirstAux : Nat → List Chars → List Chars
  | _, [] => []
  | 0, l => l
  | fuel + 1, x :: xs => x :: dedupFirstAux fuel (xs.filter (fun y => y ≠ x))

def dedupFirst (l : List Chars) : List Chars := dedupFirstAux l.length l

/-- Membership used all over the sources (`x in list` on strings). -/
def memStr (x : Chars) (l : List Chars) : Bool := l.any (fun y => y = x)

/-! ## Exact fractions

Python `float` values are modelled by exact fractions with a positive
denominator.  The sources only ever build fractions whose values are
exactly representable (twelfths, tenths, hundredths of moderate
integers) and only compare them against thresholds far from the
IEEE-754 rounding error of the corresponding float computation, so the
exact model and the float model agree on every comparison made here.
Unlike Mathlib's `ℚ`, these operations are plain integer arithmetic and
reduce inside the kernel, which the concrete counterexample proofs
need.  Fractions are not normalised; each source expression builds its
value in a fixed shape, so structurally equal events coincide with
value-equal events wherever the code compares them. -/

structure Frac where
  num : Int
  den : Int
deriving DecidableEq

def Frac.ofInt (n : Int) : Frac := ⟨n, 1⟩

def Frac.add (a b : Frac) : Frac := ⟨a.num * b.den + b.num * a.den, a.den * b.den⟩

def Frac.sub (a b : Frac) : Frac := ⟨a.num * b.den - b.num * a.den, a.den * b.den⟩

def Frac.mulInt (a : Frac) (k : Int) : Frac := ⟨a.num * k, a.den⟩

/-- Division; only used with positive divisors. -/
def Frac.divF (a b : Frac) : Frac := ⟨a.num * b.den, a.den * b.num⟩

def Frac.absF (a : Frac) : Frac := ⟨|a.num|, |a.den|⟩

/-- Value comparison (denominators here are always positive). -/
def Frac.ltF (a b : Frac) : Bool := a.num * b.den < b.num * a.den

def Frac.leF (a b : Frac) : Bool := a.num * b.den ≤ b.num * a.den

/-- Value equality of two fractions. -/
def Frac.veq (a b : Frac) : Bool := a.num * b.den = b.num * a.den

/-- `int()` truncation of a non-negative value with positive
denominator (= floor there). -/
def Frac.toIntTrunc (a : Frac) : Int := a.num.fdiv a.den

def joinSpace (l : List Chars) : Chars := List.intercalate [' '] l

/-! ## Regex scanners

Each fixed regular expression of `representations/timeline.py` is
embedded as a `step` function: given the previous character (for `\b`)
and the remaining input, it either matches at the current position and
returns the captured groups together with the number of characters
consumed, or fails.  `findall` drives a step with `re.findall`
semantics: leftmost, non-overlapping, resuming after each match. -/

/-- Captured groups of one regex match (1, 2 or 3 groups). -/
inductive MVal where
  | one (a : Chars)
  | two (a b : Chars)
  | three (a b c : Chars)
deriving DecidableEq

/-- `' '.join(match)` applied to a capture (a bare string stays as is). -/
def mvalRaw : MVal → Chars
  | .one a => a
  | .two a b => a ++ ' ' :: b
  | .three a b c => a ++ ' ' :: b ++ ' ' :: c

/-- `\b` holds before a word character iff the previous character is
absent or not a word character. -/
def bdry : Option Char → Bool
  | none => true
  | some c => !isWordChar c

/-- `\b` holds after a word character iff the next character is absent
or not a word character. -/
def endBdry : Chars → Bool
  | [] => true
  | c :: _ => !isWordChar c

/-- Maximal digit run at the front: `(run, rest)`. -/
def takeDigits (s : Chars) : Chars × Chars :=
  (s.takeWhile (fun c => isDigitChar c), s.dropWhile (fun c => isDigitChar c))

/-- Maximal whitespace run at the front: `(run, rest)`. -/
def takeWsRun (s : Chars) : Chars × Chars :=
  (s.takeWhile (fun c => isWsChar c), s.dropWhile (fun c => isWsChar c))

/-- Case-insensitive literal match (`lit` given in lower case); returns
the matched original-case characters and the rest. -/
def matchCI : Chars → Chars → Option (Chars × Chars)
  | [], s => some ([], s)
  | _ :: _, [] => none
  | l :: ls, c :: cs =>
    if lowerChar c = l then (matchCI ls cs).map (fun p => (c :: p.1, p.2)) else none

/-- Case-insensitive alternation, tried in declaration order (regex
alternation picks the first branch that lets the whole pattern match;
for the word lists used here no branch is a prefix of another, so
first-match suffices). -/
def matchAltCI (alts : List Chars) (s : Chars) : Option (Chars × Chars) :=
  match alts with
  | [] => none
  | a :: rest =>
    match matchCI a s with
    | some r => some r
    | none => matchAltCI rest s

/-- `re.findall` driver; on a failed match the scan advances one
character.  A successful match always consumes at least one character,
so `fuel = s.length` is enough; structural recursion on the fuel keeps
the definition kernel-reducible. -/
def findallAux (step : Option Char → Chars → Option (MVal × Nat)) :
    Nat → Option Char → Chars → List MVal
  | _, _, [] => []
  | 0, _, _ => []
  | fuel + 1, prev, c :: rest =>
    match step prev (c :: rest) with
    | some (a, n) =>
      let n' := max n 1
      a :: findallAux step fuel (some (((c :: rest).take n').getLast?.getD c))
        ((c :: rest).drop n')
    | none => findallAux step fuel (some c) rest

def findall (step : Option Char → Chars → Option (MVal × Nat))
    (prev : Option Char) (s : Chars) : List MVal :=
  findallAux step s.length prev s

/-- `re.sub(pattern, '', s)` driver for the same step functions. -/
def subAllAux (step : Option Char → Chars → Option (MVal × Nat)) :
    Nat → Option Char → Chars → Chars
  | _, _, [] => []
  | 0, _, s => s
  | fuel + 1, prev, c :: rest =>
    match step prev (c :: rest) with
    | some (_, n) =>
      let n' := max n 1
      subAllAux step fuel (some (((c :: rest).take n').getLast?.getD c))
        ((c :: rest).drop n')
    | none => c :: subAllAux step fuel (some c) rest

def subAll (step : Option Char → Chars → Option (MVal × Nat))
    (prev : Option Char) (s : Chars) : Chars :=
  subAllAux step s.length prev s

/-! ### The twelve date-pattern step functions (source order) -/

/-- `\b(\d{4})\b` -/
def stepYear (prev : Option Char) (s : Chars) : Option (MVal × Nat) :=
  if bdry prev then
    let (run, rest) := takeDigits s
    if run.length = 4 && endBdry rest then some (.one run, 4) else none
  else none

/-- Pattern pattern digits(1-2) sep digits(1-2) sep digits(4), with boundaries, where `sep` is a dash or a slash. -/
def stepFullDate (prev : Option Char) (s : Chars) : Option (MVal × Nat) :=
  if !bdry prev then none else
  let (r1, s1) := takeDigits s
  if r1.length = 0 || r1.length > 2 then none else
  match s1 with
  | sep1 :: s2 =>
    if sep1 = '-' || sep1 = '/' then
      let (r2, s3) := takeDigits s2
      if r2.length = 0 || r2.length > 2 then none else
      match s3 with
      | sep2 :: s4 =>
        if sep2 = '-' || sep2 = '/' then
          let (r3, s5) := takeDigits s4
          if r3.length = 4 && endBdry s5 then
            let m := r1 ++ sep1 :: (r2 ++ sep2 :: r3)
            some (.one m, m.length)
          else none
        else none
      | [] => none
    else none
  | [] => none

/-- Pattern pattern digits(4) sep digits(1-2) sep digits(1-2), with boundaries, where `sep` is a dash or a slash. -/
def stepIsoDate (prev : Option Char) (s : Chars) : Option (MVal × Nat) :=
  if !bdry prev then none else
  let (r1, s1) := takeDigits s
  if r1.length ≠ 4 then none else
  match s1 with
  | sep1 :: s2 =>
    if sep1 = '-' || sep1 = '/' then
      let (r2, s3) := takeDigits s2
      if r2.length = 0 || r2.length > 2 then none else
      match s3 with
      | sep2 :: s4 =>
        if sep2 = '-' || sep2 = '/' then
          let (r3, s5) := takeDigits s4
          if r3.length ≠ 0 && r3.length ≤ 2 && endBdry s5 then
            let m := r1 ++ sep1 :: (r2 ++ sep2 :: r3)
            some (.one m, m.length)
          else none
        else none
      | [] => none
    else none
  | [] => none

def fullMonthNames : List Chars :=
  ["january".data, "february".data, "march".data, "april".data, "may".data,
   "june".data, "july".data, "august".data, "september".data, "october".data,
   "november".data, "december".data]

/-- `\b(January|…|December)\s+(\d{4})\b` (IGNORECASE) -/
def stepMonthYear (prev : Option Char) (s : Chars) : Option (MVal × Nat) :=
  if !bdry prev then none else
  match matchAltCI fullMonthNames s with
  | some (mname, s1) =>
    let (ws, s2) := takeWsRun s1
    if ws.length = 0 then none else
    let (r, s3) := takeDigits s2
    if r.length = 4 && endBdry s3 then
      some (.two mname r, mname.length + ws.length + 4)
    else none
  | none => none

def shortMonthNames : List Chars :=
  ["jan".data, "feb".data, "mar".data, "apr".data, "may".data, "jun".data,
   "jul".data, "aug".data, "sep".data, "oct".data, "nov".data, "dec".data]

/-- `\b(Jan|…|Dec)\.?\s+(\d{4})\b` (IGNORECASE).  Taking the optional
dot greedily is safe: a dot is never whitespace, so dropping it could
never rescue the following `\s+`. -/
def stepShortMonthYear (prev : Option Char) (s : Chars) : Option (MVal × Nat) :=
  if !bdry prev then none else
  match matchAltCI shortMonthNames s with
  | some (mname, s1) =>
    let (dotN, s1') :=
      match s1 with
      | '.' :: t => (1, t)
      | _ => (0, s1)
    let (ws, s2) := takeWsRun s1'
    if ws.length = 0 then none else
    let (r, s3) := takeDigits s2
    if r.length = 4 && endBdry s3 then
      some (.two mname r, mname.length + dotN + ws.length + 4)
    else none
  | none => none

/-- `\b(early|mid|late)\s+(\d{4}s?)\b` (IGNORECASE) -/
def stepRelPeriod (prev : Option Char) (s : Chars) : Option (MVal × Nat) :=
  if !bdry prev then none else
  match matchAltCI ["early".data, "mid".data, "late".data] s with
  | some (pt, s1) =>
    let (ws, s2) := takeWsRun s1
    if ws.length = 0 then none else
    let (r, s3) := takeDigits s2
    if r.length ≠ 4 then none else
    match s3 with
    | c :: s4 =>
      if lowerChar c = 's' then
        if endBdry s4 then some (.two pt (r ++ [c]), pt.length + ws.length + 5)
        else none
      else if endBdry s3 then some (.two pt r, pt.length + ws.length + 4) else none
    | [] => some (.two pt r, pt.length + ws.length + 4)
  | none => none

/-- `\b(\d{4}s)\b` -/
def stepDecade (prev : Option Char) (s : Chars) : Option (MVal × Nat) :=
  if !bdry prev then none else
  let (r, s1) := takeDigits s
  if r.length ≠ 4 then none else
  match s1 with
  | c :: s2 =>
    if lowerChar c = 's' && endBdry s2 then some (.one (r ++ [c]), 5) else none
  | [] => none

/-- `\b(first|second|third|fourth|last)\s+(quarter|half)\s+of\s+(\d{4})\b`
(IGNORECASE) -/
def stepQuarter (prev : Option Char) (s : Chars) : Option (MVal × Nat) :=
  if !bdry prev then none else
  match matchAltCI ["first".data, "second".data, "third".data, "fourth".data,
      "last".data] s with
  | some (qw, s1) =>
    let (ws1, s2) := takeWsRun s1
    if ws1.length = 0 then none else
    match matchAltCI ["quarter".data, "half".data] s2 with
    | some (pt, s3) =>
      let (ws2, s4) := takeWsRun s3
      if ws2.length = 0 then none else
      match matchCI "of".data s4 with
      | some (ofw, s5) =>
        let (ws3, s6) := takeWsRun s5
        if ws3.length = 0 then none else
        let (r, s7) := takeDigits s6
        if r.length = 4 && endBdry s7 then
          some (.three qw pt r,
            qw.length + ws1.length + pt.length + ws2.length + ofw.length +
              ws3.length + 4)
        else none
      | none => none
    | none => none
  | none => none

/-- `\b(\d{1,2})(st|nd|rd|th)\s+century\b` (IGNORECASE) -/
def stepCentury (prev : Option Char) (s : Chars) : Option (MVal × Nat) :=
  if !bdry prev then none else
  let (r, s1) := takeDigits s
  if r.length = 0 || r.length > 2 then none else
  match matchAltCI ["st".data, "nd".data, "rd".data, "th".data] s1 with
  | some (suf, s2) =>
    let (ws, s3) := takeWsRun s2
    if ws.length = 0 then none else
    match matchCI "century".data s3 with
    | some (cw, s4) =>
      if endBdry s4 then
        some (.two r suf, r.length + suf.length + ws.length + cw.length)
      else none
    | none => none
  | none => none

/-- `\b(ancient|medieval|modern|contemporary|prehistoric)\s+(times?|era|period)\b`
(IGNORECASE) -/
def stepHistorical (prev : Option Char) (s : Chars) : Option (MVal × Nat) :=
  if !bdry prev then none else
  match matchAltCI ["ancient".data, "medieval".data, "modern".data,
      "contemporary".data, "prehistoric".data] s with
  | some (era, s1) =>
    let (ws, s2) := takeWsRun s1
    if ws.length = 0 then none else
    match matchCI "time".data s2 with
    | some (tw, s3) =>
      match s3 with
      | c :: s4 =>
        if lowerChar c = 's' then
          if endBdry s4 then
            some (.two era (tw ++ [c]), era.length + ws.length + tw.length + 1)
          else altEraPeriod era ws s2
        else if endBdry s3 then
          some (.two era tw, era.length + ws.length + tw.length)
        else altEraPeriod era ws s2
      | [] =>
        some (.two era tw, era.length + ws.length + tw.length)
    | none => altEraPeriod era ws s2
  | none => none
where
  altEraPeriod (era ws s2 : Chars) : Option (MVal × Nat) :=
    match matchAltCI ["era".data, "period".data] s2 with
    | some (pw, s3) =>
      if endBdry s3 then some (.two era pw, era.length + ws.length + pw.length)
      else none
    | none => none

/-- `\b(\d+)\s+years?\s+ago\b` (IGNORECASE) -/
def stepYearsAgo (prev : Option Char) (s : Chars) : Option (MVal × Nat) :=
  if !bdry prev then none else
  let (r, s1) := takeDigits s
  if r.length = 0 then none else
  let (ws1, s2) := takeWsRun s1
  if ws1.length = 0 then none else
  match matchCI "year".data s2 with
  | some (yw, s3) =>
    let (sN, s3') :=
      match s3 with
      | c :: t => if lowerChar c = 's' then (1, t) else (0, s3)
      | [] => (0, s3)
    let (ws2, s4) := takeWsRun s3'
    if ws2.length = 0 then none else
    match matchCI "ago".data s4 with
    | some (aw, s5) =>
      if endBdry s5 then
        some (.one r, r.length + ws1.length + yw.length + sN + ws2.length + aw.length)
      else none
    | none => none
  | none => none

/-- `\b(recently|lately|currently|now|today|tomorrow|yesterday)\b`
(IGNORECASE) -/
def stepRelTime (prev : Option Char) (s : Chars) : Option (MVal × Nat) :=
  if !bdry prev then none else
  match matchAltCI ["recently".data, "lately".data, "currently".data,
      "now".data, "today".data, "tomorrow".data, "yesterday".data] s with
  | some (w, s1) =>
    if endBdry s1 then some (.one w, w.length) else none
  | none => none

/-! ## Date parsers (`representations/timeline.py`)

Each `parse_*` method receives the captured groups of one match.  They
return `none` where the source returns `None` or raises (the extraction
loop wraps every parser call in `try/except` and skips the match on any
exception).  `datetime.now().year` is the explicit `cy` parameter. -/

/-- The parsed-date dictionaries built by the parsers.  Keys that a
given parser does not set are modelled as `none`. -/
structure DateParsed where
  year : Int
  month : Option Nat := none
  day : Option Nat := none
  quarter : Option Nat := none
  century : Option Nat := none
  period : Frac
  precision : Chars
  sort_key : Int
deriving DecidableEq

/-- `parse_year`: accepts the match only when `1800 <= year <= 2100`. -/
def parse_year (m : MVal) (_cy : Int) : Option DateParsed :=
  match m with
  | .one ds =>
    let year : Int := digitsToNat ds
    if 1800 ≤ year ∧ year ≤ 2100 then
      some { year := year, period := .ofInt year, precision := "year".data,
             sort_key := year }
    else none
  | _ => none

def isLeapYear (y : Nat) : Bool := (y % 4 = 0 && y % 100 ≠ 0) || y % 400 = 0

def daysInMonth (y m : Nat) : Nat :=
  if m = 2 then (if isLeapYear y then 29 else 28)
  else if m = 4 || m = 6 || m = 9 || m = 11 then 30
  else 31

/-- The calendar validation `datetime.strptime` performs on the
components it has read (year 1..9999, real month/day). -/
def validDate (y m d : Nat) : Bool :=
  1 ≤ y && y ≤ 9999 && 1 ≤ m && m ≤ 12 && 1 ≤ d && d ≤ daysInMonth y m

def fullDateParsed (y m d : Nat) : DateParsed :=
  { year := y, month := some m, day := some d,
    period := (Frac.ofInt y).add (((Frac.ofInt m).sub (.ofInt 1)).divF (.ofInt 12)),
    precision := "day".data,
    sort_key := (y : Int) * 10000 + (m : Int) * 100 + (d : Int) }

/-- Split a matched date string back into digit runs and separators. -/
def dateComponents (s : Chars) : Option (Chars × Char × Chars × Char × Chars) :=
  let (r1, t1) := takeDigits s
  match t1 with
  | c1 :: t2 =>
    let (r2, t3) := takeDigits t2
    match t3 with
    | c2 :: t4 =>
      let (r3, t5) := takeDigits t4
      if t5 = [] then some (r1, c1, r2, c2, r3) else none
    | [] => none
  | [] => none

/-- `parse_full_date`: tries the `strptime` formats
`%m/%d/%Y`, `%d/%m/%Y`, `%m-%d-%Y`, `%d-%m-%Y` in order; a format
succeeds only when its separators match exactly and the components form
a real calendar date. -/
def parse_full_date (m : MVal) (_cy : Int) : Option DateParsed :=
  match m with
  | .one s =>
    match dateComponents s with
    | some (r1, c1, r2, c2, r3) =>
      let a := digitsToNat r1
      let b := digitsToNat r2
      let y := digitsToNat r3
      if c1 = '/' && c2 = '/' && validDate y a b then some (fullDateParsed y a b)
      else if c1 = '/' && c2 = '/' && validDate y b a then some (fullDateParsed y b a)
      else if c1 = '-' && c2 = '-' && validDate y a b then some (fullDateParsed y a b)
      else if c1 = '-' && c2 = '-' && validDate y b a then some (fullDateParsed y b a)
      else none
    | none => none
  | _ => none

/-- `parse_iso_date`: single `strptime` format `%Y-%m-%d`. -/
def parse_iso_date (m : MVal) (_cy : Int) : Option DateParsed :=
  match m with
  | .one s =>
    match dateComponents s with
    | some (r1, c1, r2, c2, r3) =>
      let y := digitsToNat r1
      let mo := digitsToNat r2
      let d := digitsToNat r3
      if c1 = '-' && c2 = '-' && validDate y mo d then some (fullDateParsed y mo d)
      else none
    | none => none
  | _ => none

def fullMonthPairs : List (Chars × Nat) :=
  [("january".data, 1), ("february".data, 2), ("march".data, 3),
   ("april".data, 4), ("may".data, 5), ("june".data, 6), ("july".data, 7),
   ("august".data, 8), ("september".data, 9), ("october".data, 10),
   ("november".data, 11), ("december".data, 12)]

def shortMonthPairs : List (Chars × Nat) :=
  [("jan".data, 1), ("feb".data, 2), ("mar".data, 3), ("apr".data, 4),
   ("may".data, 5), ("jun".data, 6), ("jul".data, 7), ("aug".data, 8),
   ("sep".data, 9), ("oct".data, 10), ("nov".data, 11), ("dec".data, 12)]

def lookupStr (l : List (Chars × Nat)) (k : Chars) : Option Nat :=
  (l.find? (fun p => p.1 = k)).map Prod.snd

def monthYearParsed (yearInt : Int) (mn : Nat) : DateParsed :=
  { year := yearInt, month := some mn,
    period := (Frac.ofInt yearInt).add (((Frac.ofInt mn).sub (.ofInt 1)).divF (.ofInt 12)),
    precision := "month".data,
    sort_key := yearInt * 100 + (mn : Int) }

/-- `parse_month_year` -/
def parse_month_year (m : MVal) (_cy : Int) : Option DateParsed :=
  match m with
  | .two name year =>
    match lookupStr fullMonthPairs (lowerStr name) with
    | some mn => some (monthYearParsed (digitsToNat year) mn)
    | none => none
  | _ => none

/-- `parse_short_month_year` (the source strips dots from the captured
abbreviation before the lookup; the capture can never contain a dot,
but the operation is kept). -/
def parse_short_month_year (m : MVal) (_cy : Int) : Option DateParsed :=
  match m with
  | .two name year =>
    match lookupStr shortMonthPairs ((lowerStr name).filter (fun c => c ≠ '.')) with
    | some mn => some (monthYearParsed (digitsToNat year) mn)
    | none => none
  | _ => none

/-- `parse_relative_period`: offsets `early=0.2, mid=0.5, late=0.8`
(default `0.5`).  `int(period_offset * 10)` evaluates to 2, 5 and 8 in
IEEE-754 doubles exactly as in the fraction model. -/
def parse_relative_period (m : MVal) (_cy : Int) : Option DateParsed :=
  match m with
  | .two ptype yearRange =>
    let decade : Int :=
      if yearRange.getLast? = some 's' then digitsToNat yearRange.dropLast
      else digitsToNat yearRange
    let offset : Frac :=
      if lowerStr ptype = "early".data then ⟨2, 10⟩
      else if lowerStr ptype = "mid".data then ⟨5, 10⟩
      else if lowerStr ptype = "late".data then ⟨8, 10⟩
      else ⟨5, 10⟩
    some { year := decade, period := (Frac.ofInt decade).add offset,
           precision := "period".data,
           sort_key := decade * 10 + (offset.mulInt 10).toIntTrunc }
  | _ => none

/-- `parse_decade` -/
def parse_decade (m : MVal) (_cy : Int) : Option DateParsed :=
  match m with
  | .one s =>
    let decade : Int := digitsToNat s.dropLast
    some { year := decade, period := (Frac.ofInt decade).add (.ofInt 5),
           precision := "decade".data, sort_key := decade }
  | _ => none

/-- `parse_quarter`.  Note that the source compares the captured period
word to the exact lowercase literal `'quarter'`, so an IGNORECASE match
such as `"Quarter"` falls into the `half` branch. -/
def parse_quarter (m : MVal) (_cy : Int) : Option DateParsed :=
  match m with
  | .three qw ptype year =>
    let qn : Nat :=
      if lowerStr qw = "first".data then 1
      else if lowerStr qw = "second".data then 2
      else if lowerStr qw = "third".data then 3
      else if lowerStr qw = "fourth".data then 4
      else if lowerStr qw = "last".data then 4
      else 2
    let y : Int := digitsToNat year
    let month : Nat := if ptype = "quarter".data then (qn - 1) * 3 + 2
      else if qn ≤ 2 then 3 else 9
    some { year := y, quarter := some qn,
           period := (Frac.ofInt y).add (((Frac.ofInt month).sub (.ofInt 1)).divF (.ofInt 12)),
           precision := "quarter".data,
           sort_key := y * 10 + (qn : Int) }
  | _ => none

/-- `parse_century` -/
def parse_century (m : MVal) (_cy : Int) : Option DateParsed :=
  match m with
  | .two num _suffix =>
    let c : Int := digitsToNat num
    let year : Int := (c - 1) * 100 + 50
    some { year := year, century := some c.toNat, period := .ofInt year,
           precision := "century".data, sort_key := year }
  | _ => none

/-- `parse_historical_period` receives the two captured groups as a
tuple and immediately calls `.lower()` on it, which raises
`AttributeError`; the extraction loop swallows the exception, so this
family never produces an event. -/
def parse_historical_period (_m : MVal) (_cy : Int) : Option DateParsed := none

/-- `parse_years_ago`: `year = datetime.now().year - N`. -/
def parse_years_ago (m : MVal) (cy : Int) : Option DateParsed :=
  match m with
  | .one ds =>
    let year : Int := cy - digitsToNat ds
    some { year := year, period := .ofInt year, precision := "relative".data,
           sort_key := year }
  | _ => none

/-- `parse_relative_time`: maps the time word through the clock. -/
def parse_relative_time (m : MVal) (cy : Int) : Option DateParsed :=
  match m with
  | .one w =>
    let lw := lowerStr w
    let year : Int :=
      if lw = "recently".data then cy - 1
      else if lw = "lately".data then cy - 1
      else if lw = "currently".data then cy
      else if lw = "now".data then cy
      else if lw = "today".data then cy
      else if lw = "tomorrow".data then cy + 1
      else if lw = "yesterday".data then cy - 1
      else cy
    some { year := year, period := .ofInt year, precision := "relative".data,
           sort_key := year }
  | _ => none

/-- One entry of the `date_patterns` cascade. -/
structure DateFamily where
  dtype : Chars
  step : Option Char → Chars → Option (MVal × Nat)
  parse : MVal → Int → Option DateParsed

/-- The ordered cascade of date-pattern families from
`extract_timeline_events_enhanced`, in source order. -/
def datePatterns : List DateFamily :=
  [⟨"year".data, stepYear, parse_year⟩,
   ⟨"date".data, stepFullDate, parse_full_date⟩,
   ⟨"date".data, stepIsoDate, parse_iso_date⟩,
   ⟨"month_year".data, stepMonthYear, parse_month_year⟩,
   ⟨"month_year".data, stepShortMonthYear, parse_short_month_year⟩,
   ⟨"period".data, stepRelPeriod, parse_relative_period⟩,
   ⟨"decade".data, stepDecade, parse_decade⟩,
   ⟨"quarter".data, stepQuarter, parse_quarter⟩,
   ⟨"century".data, stepCentury, parse_century⟩,
   ⟨"historical".data, stepHistorical, parse_historical_period⟩,
   ⟨"years_ago".data, stepYearsAgo, parse_years_ago⟩,
   ⟨"relative_time".data, stepRelTime, parse_relative_time⟩]

/-- The per-family match loop: the first match whose parser succeeds
wins, and the `break` then leaves the match loop (later matches of the
same family are discarded). -/
def firstParse (p : MVal → Option DateParsed) : List MVal → Option (MVal × DateParsed)
  | [] => none
  | m :: ms =>
    match p m with
    | some d => some (m, d)
    | none => firstParse p ms

/-! ## Timeline events -/

/-- `extract_sentences` from `representations/base.py`:
`re.split(r'[.!?]+', content)`, stripped, empties dropped. -/
def extract_sentences (content : Chars) : List Chars :=
  ((splitAny (fun c => c = '.' || c = '!' || c = '?') content).map pyStrip).filter
    (fun s => ¬ s.isEmpty)

/-- `extract_paragraphs` from `representations/base.py`. -/
def extract_paragraphs (content : Chars) : List Chars :=
  ((splitSub "\n\n".data content).map pyStrip).filter (fun s => ¬ s.isEmpty)

structure TEvent where
  id : Chars
  title : Chars
  description : Chars
  date_raw : Chars
  date_parsed : DateParsed
  period : Frac
  precision : Chars
  etype : Chars
  importance : Nat
  icon : Chars
deriving DecidableEq

def titleStopWords : List Chars :=
  ["this".data, "that".data, "these".data, "those".data, "with".data,
   "from".data, "they".data, "were".data, "have".data, "been".data]

/-- `extract_event_title`:  drop `\b\d{4}\b` matches, then
month-plus-year matches, keep words whose alphanumeric core is longer
than 3 characters and not in the stop list, join the first six, and
truncate at 60 characters. -/
def extract_event_title (sentence : Chars) : Chars :=
  let s1 := subAll stepYear none sentence
  let s2 := subAll stepMonthYear none s1
  let ws := pyWords s2
  let important := ws.filterMap (fun w =>
    let wc := w.filter (fun c => isWordChar c)
    if wc.length > 3 && !memStr (lowerStr wc) titleStopWords then some wc
    else none)
  if important ≠ [] then
    let title := joinSpace (important.take 6)
    if title.length > 60 then title.take 57 ++ "...".data else title
  else
    if sentence.length > 60 then sentence.take 57 ++ "...".data else sentence

def anyKw (kws : List String) (sl : Chars) : Bool :=
  kws.any (fun k => containsSub k.data sl)

/-- `classify_event_type` -/
def classify_event_type (sentence : Chars) : Chars :=
  let sl := lowerStr sentence
  if anyKw ["invented", "developed", "created", "launched", "released",
      "introduced"] sl then "innovation".data
  else if anyKw ["discovered", "found", "identified", "observed",
      "detected"] sl then "discovery".data
  else if anyKw ["founded", "established", "company", "business",
      "corporation", "startup"] sl then "business".data
  else if anyKw ["war", "battle", "revolution", "independence", "treaty",
      "peace"] sl then "historical".data
  else if anyKw ["research", "study", "experiment", "theory", "hypothesis",
      "published"] sl then "scientific".data
  else if anyKw ["born", "died", "married", "graduated", "appointed",
      "elected"] sl then "personal".data
  else "general".data

def importantKeywords : List String :=
  ["first", "invented", "discovered", "revolutionary", "breakthrough",
   "significant", "major", "important", "critical", "landmark",
   "historic", "unprecedented", "groundbreaking", "pioneering"]

/-- `calculate_event_importance`: base 1, length bonus capped at 3, +2
per importance keyword present, +1 when the sentence contains a digit
(the numeric regex always succeeds on any digit), capped at 10. -/
def calculate_event_importance (sentence : Chars) : Nat :=
  let sl := lowerStr sentence
  let imp := 1 + min (sentence.length / 50) 3
  let imp := imp + 2 * (importantKeywords.countP (fun k => containsSub k.data sl))
  let imp := imp + (if hasDigit sentence then 1 else 0)
  min imp 10

/-- `get_event_icon` -/
def get_event_icon (t : Chars) : Chars :=
  if t = "innovation".data then "💡".data
  else if t = "discovery".data then "🔍".data
  else if t = "business".data then "🏢".data
  else if t = "historical".data then "🏛️".data
  else if t = "scientific".data then "🔬".data
  else if t = "personal".data then "👤".data
  else if t = "general".data then "📅".data
  else "📅".data

/-- The event dictionary built for one successful parse.  The id is
filled in afterwards from the position in the list, which equals the
running `len(events)` counter the source uses. -/
def eventFromSentence (sentence : Chars) (m : MVal) (d : DateParsed) : TEvent :=
  { id := [],
    title := extract_event_title sentence,
    description := pyStrip sentence,
    date_raw := mvalRaw m,
    date_parsed := d,
    period := d.period,
    precision := d.precision,
    etype := classify_event_type sentence,
    importance := calculate_event_importance sentence,
    icon := get_event_icon (classify_event_type sentence) }

/-- All events one sentence contributes: sentences shorter than 10
characters (after strip) are skipped; every family is tried, and each
family contributes at most its first parseable match (the `break`
leaves only the inner match loop, not the family loop). -/
def sentenceRawEvents (cy : Int) (sentence : Chars) : List TEvent :=
  if (pyStrip sentence).length < 10 then [] else
  datePatterns.filterMap (fun fam =>
    (firstParse (fun m => fam.parse m cy) (findall fam.step none sentence)).map
      (fun p => eventFromSentence sentence p.1 p.2))

def natDigits (n : Nat) : Chars := (Nat.repr n).data

/-- The raw event list before deduplication, with ids `event_i`. -/
def rawTimelineEvents (cy : Int) (content : Chars) : List TEvent :=
  let evs := ((extract_sentences content).map (sentenceRawEvents cy)).flatten
  evs.enum.map (fun p => { p.2 with id := "event_".data ++ natDigits p.1 })

/-- `events_similar`: more than 60% overlap between the lowercase title
word sets, measured against the smaller set.  `overlap/min > 0.6` on
floats is decided exactly by `5*overlap > 3*min` (the fractions that
occur have denominators far too small for the float rounding of `0.6`
to matter). -/
def events_similar (e1 e2 : TEvent) : Bool :=
  let w1 := dedupFirst (pyWords (lowerStr e1.title))
  let w2 := dedupFirst (pyWords (lowerStr e2.title))
  if w1.length = 0 || w2.length = 0 then false
  else
    let ov := w1.countP (fun w => memStr w w2)
    5 * ov > 3 * min w1.length w2.length

/-- The duplicate test of `remove_duplicate_events`: similar titles or
periods closer than `0.1`. -/
def simOrClose (e ex : TEvent) : Bool :=
  events_similar e ex ||
    ((e.date_parsed.period.sub ex.date_parsed.period).absF.ltF ⟨1, 10⟩)

/-- `remove_duplicate_events`: one pass; each event is compared against
the retained list in order, merging with the first similar entry
(keeping the more important of the two, appending the replacement at
the end). -/
def removeDupAux : List TEvent → List TEvent → List TEvent
  | [], uniq => uniq
  | e :: rest, uniq =>
    match uniq.find? (fun ex => simOrClose e ex) with
    | none => removeDupAux rest (uniq ++ [e])
    | some ex =>
      if e.importance > ex.importance then removeDupAux rest (uniq.erase ex ++ [e])
      else removeDupAux rest uniq

def remove_duplicate_events (evs : List TEvent) : List TEvent := removeDupAux evs []

/-- `extract_timeline_events_enhanced` -/
def extract_timeline_events_enhanced (cy : Int) (content : Chars) : List TEvent :=
  remove_duplicate_events (rawTimelineEvents cy content)

/-- Stable insertion keyed by `date_parsed['sort_key']`; an element
inserted from the left goes before equal keys, which reproduces the
stable order of Python `sorted`. -/
def insertByKey (e : TEvent) : List TEvent → List TEvent
  | [] => [e]
  | x :: xs =>
    if e.date_parsed.sort_key ≤ x.date_parsed.sort_key then e :: x :: xs
    else x :: insertByKey e xs

/-- `sort_events_chronologically` (`sorted` with `key=sort_key`). -/
def sort_events_chronologically (evs : List TEvent) : List TEvent :=
  evs.foldr insertByKey []

/-! ## Results

`RepresentationResult` of `representations/base.py`.  The heterogeneous
`content`/`metadata` dictionaries are modelled by `Val`. -/

inductive Val where
  | str (s : Chars)
  | int (n : Int)
  | rat (q : Frac)
  | bool (b : Bool)
  | null
  | list (l : List Val)
  | dict (l : List (Chars × Val))

/-- Dictionary field access (first binding wins, as in a Python dict
literal without duplicate keys). -/
def Val.dget (v : Val) (k : Chars) : Option Val :=
  match v with
  | .dict l => (l.find? (fun p => p.1 = k)).map Prod.snd
  | _ => none

structure RepResult where
  mode : Chars
  content : Val
  metadata : Val
  css_classes : List Chars
  javascript_code : Option Chars := none
  frontend_config : Option Val := none

/-- `validate_content` of `representations/base.py`: falsy or shorter
than 10 characters after stripping. -/
def validate_content (content : Chars) : Bool :=
  !(content.isEmpty || (pyStrip content).length < 10)

/-- `get_error_result` of `representations/base.py`. -/
def get_error_result (mode msg : Chars) : RepResult :=
  { mode := mode,
    content := .dict
      [("error".data, .bool true),
       ("message".data, .str msg),
       ("fallback_content".data,
        .str "Unable to process content for this representation mode.".data)],
    metadata := .dict
      [("error".data, .bool true), ("processing_time".data, .int 0)],
    css_classes := ["error-state".data],
    frontend_config := some (.dict [("show_error".data, .bool true)]) }

/-- The `date_parsed` dictionary of an event; optional keys are present
only when the producing parser sets them. -/
def dateParsedVal (d : DateParsed) : Val :=
  .dict ([("year".data, .int d.year)]
    ++ (match d.month with | some m => [("month".data, Val.int m)] | none => [])
    ++ (match d.day with | some x => [("day".data, Val.int x)] | none => [])
    ++ (match d.quarter with | some q => [("quarter".data, Val.int q)] | none => [])
    ++ (match d.century with | some c => [("century".data, Val.int c)] | none => [])
    ++ [("period".data, .rat d.period), ("precision".data, .str d.precision),
        ("sort_key".data, .int d.sort_key)])

def eventVal (e : TEvent) : Val :=
  .dict [("id".data, .str e.id), ("title".data, .str e.title),
         ("description".data, .str e.description),
         ("date_raw".data, .str e.date_raw),
         ("date_parsed".data, dateParsedVal e.date_parsed),
         ("period".data, .rat e.period), ("precision".data, .str e.precision),
         ("type".data, .str e.etype), ("importance".data, .int e.importance),
         ("icon".data, .str e.icon)]

def intDigits (i : Int) : Chars := (Int.repr i).data

/-- `calculate_timeline_span` (note the integer divisions are Python
floor divisions; the negative-span case never reaches them because of
the `< 10` branch). -/
def calculate_timeline_span (events : List TEvent) : Chars :=
  match events with
  | [] => "No timeline".data
  | e0 :: _ =>
    let start_year := e0.date_parsed.year
    let end_year := (events.getLast?.getD e0).date_parsed.year
    let span := end_year - start_year
    if span = 0 then "Single year".data
    else if span < 10 then intDigits span ++ " years".data
    else if span < 100 then intDigits (Int.fdiv span 10) ++ " decades".data
    else intDigits (Int.fdiv span 100) ++ " centuries".data

/-- `create_timeline_config` -/
def create_timeline_config (events : List TEvent) : Val :=
  match events with
  | [] => .dict []
  | _ =>
    .dict [("orientation".data, .str "horizontal".data),
           ("show_current_time".data, .bool false),
           ("zoom_min".data, .int (1000 * 60 * 60 * 24 * 365)),
           ("zoom_max".data, .int (1000 * 60 * 60 * 24 * 365 * 100)),
           ("stack".data, .bool true),
           ("margin".data, .dict [("item".data, .int 10), ("axis".data, .int 20)]),
           ("editable".data, .bool false),
           ("selectable".data, .bool true),
           ("multiselect".data, .bool false),
           ("tooltip".data, .dict [("followMouse".data, .bool true),
             ("overflowMethod".data, .str "cap".data)])]

abbrev Prefs := List (Chars × Chars)

/-- `TimelineRepresentation.process`.  The body never raises (the
`except` branch of the source is unreachable in this model), so the
`try` wrapper disappears. -/
def timelineProcess (cy : Int) (content : Chars) (_prefs : Prefs) : RepResult :=
  if !validate_content content then
    get_error_result "timeline".data "Content too short for timeline generation".data
  else
    let events := extract_timeline_events_enhanced cy content
    if events.isEmpty then
      get_error_result "timeline".data "No temporal events found in content".data
    else
      let sorted_events := sort_events_chronologically events
      let timeline_span := calculate_timeline_span sorted_events
      { mode := "timeline".data,
        content := .dict
          [("events".data, .list (sorted_events.map eventVal)),
           ("timeline_config".data, create_timeline_config sorted_events),
           ("stats".data, .dict
             [("event_count".data, .int sorted_events.length),
              ("timeline_span".data, .str timeline_span),
              ("start_period".data,
               match sorted_events.head? with
               | some e => .rat e.period
               | none => .null),
              ("end_period".data,
               match sorted_events.getLast? with
               | some e => .rat e.period
               | none => .null)])],
        metadata := .dict
          [("event_count".data, .int sorted_events.length),
           ("timeline_span".data, .str timeline_span),
           ("complexity".data, .str
             (if 10 < sorted_events.length then "high".data
              else if 5 < sorted_events.length then "medium".data
              else "low".data))],
        css_classes := ["timeline".data, "chronological".data, "interactive".data],
        javascript_code := some "initializeTimeline".data,
        frontend_config := some (.dict
          [("container_id".data, .str "timeline-container".data),
           ("enable_zoom".data, .bool true),
           ("enable_navigation".data, .bool true),
           ("show_periods".data, .bool true)]) }

/-! ## Concrete inputs used by counterexamples and witnesses -/

/-- Two sentences; the second matches both the relative-period family
(`early 2010s`) and the decade family (`2010s`). -/
def cexTimelineContent : Chars :=
  "Sales stabilized during 2015. In the early 2010s smartphones became truly important worldwide.".data

/-- Three month-dated sentences in 1750 (outside the bare-year range,
so only the month-year family fires). -/
def cexDedupContent : Chars :=
  "February 1750 delivered bitter frosts. April 1750 brought heavy flooding rains. March 1750 brought heavy flooding rains and major damage.".data

/-- One sentence matched by the `N years ago` family, whose parser
reads the clock. -/
def cexClockContent : Chars :=
  "Scientists discovered the vaccine 5 years ago.".data

def defaultEvent : TEvent :=
  { id := [], title := [], description := [], date_raw := [],
    date_parsed := { year := 0, period := ⟨0, 1⟩, precision := [], sort_key := 0 },
    period := ⟨0, 1⟩, precision := [], etype := [], importance := 0, icon := [] }

/-- The timeline-mode output events for `cexDedupContent`. -/
def dedupCexEvents : List TEvent :=
  sort_events_chronologically (extract_timeline_events_enhanced 2025 cexDedupContent)

/-! ## Supporting lemmas -/

def keyLe (a b : TEvent) : Prop :=
  a.date_parsed.sort_key ≤ b.date_parsed.sort_key

theorem mem_insertByKey {e a : TEvent} {l : List TEvent} :
    a ∈ insertByKey e l ↔ a = e ∨ a ∈ l := by
  induction l with
  | nil => simp [insertByKey]
  | cons x xs ih =>
    unfold insertByKey
    split
    · simp
    · simp only [List.mem_cons, ih]
      tauto

theorem pairwise_insertByKey {e : TEvent} {l : List TEvent}
    (h : l.Pairwise keyLe) : (insertByKey e l).Pairwise keyLe := by
  induction l with
  | nil => simp [insertByKey, List.pairwise_cons]
  | cons x xs ih =>
    rw [List.pairwise_cons] at h
    unfold insertByKey
    split
    · rename_i hle
      refine List.pairwise_cons.mpr ⟨?_, List.pairwise_cons.mpr h⟩
      intro b hb
      rcases List.mem_cons.mp hb with hbx | hbxs
      · subst hbx; exact hle
      · exact le_trans hle (h.1 b hbxs)
    · rename_i hgt
      refine List.pairwise_cons.mpr ⟨?_, ih h.2⟩
      intro b hb
      rcases mem_insertByKey.mp hb with hbe | hbxs
      · subst hbe
        exact le_of_not_le hgt
      · exact h.1 b hbxs

theorem pairwise_sortEvents (l : List TEvent) :
    (sort_events_chronologically l).Pairwise keyLe := by
  induction l with
  | nil => simp [sort_events_chronologically]
  | cons e es ih =>
    unfold sort_events_chronologically at ih ⊢
    simpa using @pairwise_insertByKey e _ ih

theorem mem_removeDupAux :
    ∀ (rest uniq : List TEvent) (e : TEvent),
      e ∈ removeDupAux rest uniq → e ∈ uniq ∨ e ∈ rest := by
  intro rest
  induction rest with
  | nil => intro uniq e h; exact Or.inl h
  | cons ev rest ih =>
    intro uniq e h
    unfold removeDupAux at h
    rcases hfind : uniq.find? (fun ex => simOrClose ev ex) with _ | ex
    · rw [hfind] at h
      dsimp only at h
      rcases ih _ _ h with huniq | hrest
      · rcases List.mem_append.mp huniq with h1 | h2
        · exact Or.inl h1
        · simp only [List.mem_singleton] at h2
          exact Or.inr (by simp [h2])
      · exact Or.inr (List.mem_cons_of_mem _ hrest)
    · rw [hfind] at h
      dsimp only at h
      by_cases himp : ev.importance > ex.importance
      · rw [if_pos himp] at h
        rcases ih _ _ h with huniq | hrest
        · rcases List.mem_append.mp huniq with h1 | h2
          · exact Or.inl (List.mem_of_mem_erase h1)
          · simp only [List.mem_singleton] at h2
            exact Or.inr (by simp [h2])
        · exact Or.inr (List.mem_cons_of_mem _ hrest)
      · rw [if_neg himp] at h
        rcases ih _ _ h with huniq | hrest
        · exact Or.inl huniq
        · exact Or.inr (List.mem_cons_of_mem _ hrest)

theorem firstParse_none (p : MVal → Option DateParsed) :
    ∀ l, (∀ m ∈ l, p m = none) → firstParse p l = none := by
  intro l
  induction l with
  | nil => intro; rfl
  | cons m ms ih =>
    intro h
    unfold firstParse
    rw [h m (List.mem_cons_self m ms)]
    exact ih (fun x hx => h x (List.mem_cons_of_mem _ hx))

theorem firstParse_congr {p q : MVal → Option DateParsed}
    (h : ∀ m, p m = q m) : ∀ l, firstParse p l = firstParse q l := by
  intro l
  induction l with
  | nil => rfl
  | cons m ms ih =>
    unfold firstParse
    rw [h m, ih]

theorem lookup_month_bounds {k : Chars} {n : Nat}
    (h : lookupStr fullMonthPairs k = some n) : 1 ≤ n ∧ n ≤ 12 := by
  unfold lookupStr at h
  rcases hf : fullMonthPairs.find? (fun p => p.1 = k) with _ | p
  · rw [hf] at h; cases h
  · rw [hf] at h
    have h2 : p.2 = n := by simpa using h
    have hmem := List.mem_of_find?_eq_some hf
    have hall : ∀ p ∈ fullMonthPairs, 1 ≤ p.2 ∧ p.2 ≤ 12 := by decide
    have := hall p hmem
    omega

/-- Extract the `year` of every event embedded in a timeline result
content value (used to separate two results). -/
def valEventYears (v : Val) : List Int :=
  match v.dget "events".data with
  | some (.list evs) =>
    evs.filterMap (fun ev =>
      match ev.dget "date_parsed".data with
      | some dp =>
        match dp.dget "year".data with
        | some (.int y) => some y
        | _ => none
      | none => none)
  | _ => []

/-! ## C3 -/

/-- C3, counterexample: on `cexTimelineContent` the sentence
`"In the early 2010s smartphones became truly important worldwide"`
yields TWO events in the final extraction (one from the relative-period
family, one from the decade family): the `break` in the source only
leaves the inner match loop, so later families still fire, and here
deduplication replaces the first sentence's event instead of merging
the two.  This falsifies "no single sentence ever yields more than one
timeline event". -/
theorem timeline_one_sentence_two_events :
    (extract_timeline_events_enhanced 2025 cexTimelineContent).length = 2 ∧
    ((extract_timeline_events_enhanced 2025 cexTimelineContent).getD 0 defaultEvent).description =
      "In the early 2010s smartphones became truly important worldwide".data ∧
    ((extract_timeline_events_enhanced 2025 cexTimelineContent).getD 1 defaultEvent).description =
      "In the early 2010s smartphones became truly important worldwide".data ∧
    ((extract_timeline_events_enhanced 2025 cexTimelineContent).getD 0 defaultEvent).precision =
      "period".data ∧
    ((extract_timeline_events_enhanced 2025 cexTimelineContent).getD 1 defaultEvent).precision =
      "decade".data := by
  decide

/-- C3 (amended): timeline extraction evaluates an ordered cascade of
TWELVE (not 14) date-pattern families per sentence; each family
contributes at most one event per sentence (so a sentence contributes
at most 12 raw events), and every retained event is one of the raw
extracted events — but a sentence may contribute events through several
families, and deduplication does not always reduce them to one. -/
theorem timeline_cascade_twelve_families :
    datePatterns.length = 12 ∧
    (∀ cy sentence, (sentenceRawEvents cy sentence).length ≤ 12) ∧
    (∀ evs e, e ∈ remove_duplicate_events evs → e ∈ evs) := by
  refine ⟨rfl, ?_, ?_⟩
  · intro cy sentence
    unfold sentenceRawEvents
    split
    · simp
    · calc (datePatterns.filterMap _).length ≤ datePatterns.length :=
            List.length_filterMap_le _ _
        _ = 12 := rfl
  · intro evs e h
    rcases mem_removeDupAux evs [] e h with h0 | h1
    · cases h0
    · exact h1

/-- C3, witness for the amended theorem: the first retained event of
the counterexample content is one of the raw extracted events. -/
theorem timeline_cascade_twelve_families_witness :
    ((extract_timeline_events_enhanced 2025 cexTimelineContent).getD 0 defaultEvent)
      ∈ rawTimelineEvents 2025 cexTimelineContent :=
  timeline_cascade_twelve_families.2.2 (rawTimelineEvents 2025 cexTimelineContent) _
    (by decide)

/-! ## C4 -/

/-- C4, counterexample: `parse_month_year` on March 1850 gives
`sort_key = 185003` while `parse_year` on 1905 gives `sort_key = 1905`;
the 1850 event is chronologically earlier yet has the larger sort key,
so ascending `sort_key` order is NOT chronological across mixed
precisions. -/
theorem sort_key_cross_precision_cex :
    ((parse_month_year (.two "March".data "1850".data) 0).map
      (fun d => (d.year, d.sort_key))) = some (1850, 185003) ∧
    ((parse_year (.one "1905".data) 0).map
      (fun d => (d.year, d.sort_key))) = some (1905, 1905) ∧
    (1850 : Int) < 1905 ∧ (1905 : Int) < 185003 := by
  decide

/-- C4 (amended): within a single date family the sort key is monotone
in chronological order — for two bare-year events, and for two
month-year events ordered by their period value — but this fails across
mixed precisions (see the counterexample). -/
theorem sort_key_within_family_monotone :
    (∀ m₁ m₂ cy₁ cy₂ d₁ d₂, parse_year m₁ cy₁ = some d₁ →
       parse_year m₂ cy₂ = some d₂ → d₁.year ≤ d₂.year →
       d₁.sort_key ≤ d₂.sort_key) ∧
    (∀ m₁ m₂ cy₁ cy₂ d₁ d₂, parse_month_year m₁ cy₁ = some d₁ →
       parse_month_year m₂ cy₂ = some d₂ → d₁.period.leF d₂.period = true →
       d₁.sort_key ≤ d₂.sort_key) := by
  constructor
  · intro m₁ m₂ cy₁ cy₂ d₁ d₂ h₁ h₂ hy
    cases m₁ with
    | one ds₁ =>
      cases m₂ with
      | one ds₂ =>
        simp only [parse_year] at h₁ h₂
        split at h₁
        case isFalse => cases h₁
        split at h₂
        case isFalse => cases h₂
        cases h₁
        cases h₂
        simpa using hy
      | two a b => cases h₂
      | three a b c => cases h₂
    | two a b => cases h₁
    | three a b c => cases h₁
  · intro m₁ m₂ cy₁ cy₂ d₁ d₂ h₁ h₂ hp
    cases m₁ with
    | two n₁ y₁ =>
      cases m₂ with
      | two n₂ y₂ =>
        simp only [parse_month_year] at h₁ h₂
        rcases hl₁ : lookupStr fullMonthPairs (lowerStr n₁) with _ | mn₁ <;>
          rw [hl₁] at h₁ <;> cases h₁
        rcases hl₂ : lookupStr fullMonthPairs (lowerStr n₂) with _ | mn₂ <;>
          rw [hl₂] at h₂ <;> cases h₂
        have hb₁ := lookup_month_bounds hl₁
        have hb₂ := lookup_month_bounds hl₂
        simp only [monthYearParsed, Frac.leF, Frac.add, Frac.sub, Frac.divF,
          Frac.ofInt, decide_eq_true_eq] at hp ⊢
        omega
      | one a => cases h₂
      | three a b c => cases h₂
    | one a => cases h₁
    | three a b c => cases h₁

/-- C4, witness: March 1850 and April 1850 are in chronological order
within the month-year family and their keys respect it. -/
theorem sort_key_within_family_monotone_witness :
    (monthYearParsed 1850 3).sort_key ≤ (monthYearParsed 1850 4).sort_key :=
  sort_key_within_family_monotone.2 (.two "March".data "1850".data)
    (.two "April".data "1850".data) 0 0 _ _ rfl rfl (by decide)

/-! ## C5 -/

/-- C5, counterexample: on `cexDedupContent` the returned event list
retains a pair with identical-enough titles (overlap 4/5 > 60%) AND a
period gap of 1/12 < 0.1.  The one-pass deduplication compared the
March event only against the February event it replaced, never against
the April event that remains. -/
theorem timeline_retained_similar_pair_cex :
    dedupCexEvents.length = 2 ∧
    events_similar (dedupCexEvents.getD 0 defaultEvent)
      (dedupCexEvents.getD 1 defaultEvent) = true ∧
    (((dedupCexEvents.getD 0 defaultEvent).date_parsed.period.sub
        (dedupCexEvents.getD 1 defaultEvent).date_parsed.period).absF.ltF
      ⟨1, 10⟩) = true := by
  decide

/-- C5 (amended): the event list returned by the Timeline mode is
non-decreasing by `sort_key`; the no-similar-pair part of the claim
fails (see the counterexample), because the deduplication pass does not
re-compare replacement events against later retained entries. -/
theorem timeline_output_sorted_by_key :
    ∀ cy content,
      (sort_events_chronologically
        (extract_timeline_events_enhanced cy content)).Pairwise keyLe := by
  intro cy content
  exact pairwise_sortEvents _

/-! ## C9 -/

/-- C9, counterexample: the Timeline mode is NOT a function of
`(content, mode, preferences)` alone — `parse_years_ago` reads the
clock, so the identical call made in two different years returns
different Results. -/
theorem timeline_clock_dependence_cex :
    timelineProcess 2025 cexClockContent [] ≠ timelineProcess 2026 cexClockContent [] := by
  intro h
  exact absurd (congrArg (fun r => valEventYears r.content) h) (by decide)

/-- C9 (amended): all modes except PuzzleBased are deterministic
functions of their inputs AND the current clock year; the Timeline mode
depends on the year only through the `N years ago` and
relative-time-word families, so whenever no sentence matches either of
those two patterns, calls in different years agree byte for byte. -/
theorem timeline_clock_invariance :
    ∀ content prefs cy₁ cy₂,
      (∀ s ∈ extract_sentences content,
        findall stepYearsAgo none s = [] ∧ findall stepRelTime none s = []) →
      timelineProcess cy₁ content prefs = timelineProcess cy₂ content prefs := by
  intro content prefs cy₁ cy₂ h
  have hsent : ∀ s ∈ extract_sentences content,
      sentenceRawEvents cy₁ s = sentenceRawEvents cy₂ s := by
    intro s hs
    unfold sentenceRawEvents
    split
    · rfl
    · apply List.filterMap_congr
      intro fam hfam
      have hfp : firstParse (fun m => fam.parse m cy₁) (findall fam.step none s) =
          firstParse (fun m => fam.parse m cy₂) (findall fam.step none s) := by
        simp only [datePatterns, List.mem_cons, List.not_mem_nil, or_false] at hfam
        rcases hfam with h' | h' | h' | h' | h' | h' | h' | h' | h' | h' | h' | h' <;>
          subst h'
        · exact firstParse_congr (fun m => by cases m <;> rfl) _
        · exact firstParse_congr (fun m => by cases m <;> rfl) _
        · exact firstParse_congr (fun m => by cases m <;> rfl) _
        · exact firstParse_congr (fun m => by cases m <;> rfl) _
        · exact firstParse_congr (fun m => by cases m <;> rfl) _
        · exact firstParse_congr (fun m => by cases m <;> rfl) _
        · exact firstParse_congr (fun m => by cases m <;> rfl) _
        · exact firstParse_congr (fun m => by cases m <;> rfl) _
        · exact firstParse_congr (fun m => by cases m <;> rfl) _
        · exact firstParse_congr (fun m => by cases m <;> rfl) _
        · rw [(h s hs).1]; rfl
        · rw [(h s hs).2]; rfl
      rw [hfp]
  have hraw : rawTimelineEvents cy₁ content = rawTimelineEvents cy₂ content := by
    unfold rawTimelineEvents
    rw [List.map_congr_left hsent]
  unfold timelineProcess extract_timeline_events_enhanced
  rw [hraw]

/-- C9, witness for the amended theorem: `cexDedupContent` contains no
relative-date sentence, so two calls a year apart agree. -/
theorem timeline_clock_invariance_witness :
    timelineProcess 2025 cexDedupContent [] = timelineProcess 2026 cexDedupContent [] :=
  timeline_clock_invariance cexDedupContent [] 2025 2026 (by decide)

/-! ## C10 -/

/-- Every bare-year match of a sentence is outside 1800..2100 (the
matcher only ever produces single-group matches). -/
def yearMatchOutOfRange : MVal → Bool
  | .one ds => decide (digitsToNat ds < 1800) || decide (2100 < digitsToNat ds)
  | _ => true

/-- C10: the bare-year parser accepts exactly the years 1800..2100; a
four-digit year outside the range parses to `None`, and when every
bare-year match of a sentence is out of range the family's match loop
produces no event (the failure is silent — the loop just moves on). -/
theorem parse_year_bare_range :
    (∀ ds cy, (digitsToNat ds < 1800 ∨ 2100 < digitsToNat ds) →
       parse_year (.one ds) cy = none) ∧
    (∀ sentence cy,
       (findall stepYear none sentence).all yearMatchOutOfRange = true →
       firstParse (fun m => parse_year m cy) (findall stepYear none sentence) = none) := by
  have hout : ∀ ds cy, (digitsToNat ds < 1800 ∨ 2100 < digitsToNat ds) →
      parse_year (.one ds) cy = none := by
    intro ds cy h
    have hcond : ¬((1800 : Int) ≤ (digitsToNat ds : Int) ∧
        (digitsToNat ds : Int) ≤ 2100) := by omega
    simp only [parse_year]
    rw [if_neg hcond]
  refine ⟨hout, ?_⟩
  intro sentence cy hall
  apply firstParse_none
  intro m hm
  have hb := List.all_eq_true.mp hall m hm
  cases m with
  | one ds =>
    apply hout
    unfold yearMatchOutOfRange at hb
    simpa using hb
  | two a b => rfl
  | three a b c => rfl

/-- C10, witness: `1776` is a bare four-digit year below 1800; the
bare-year family yields nothing on the sentence. -/
theorem parse_year_bare_range_witness :
    firstParse (fun m => parse_year m 2025)
      (findall stepYear none "In 1776 the revolution began".data) = none :=
  parse_year_bare_range.2 "In 1776 the revolution began".data 2025 (by decide)

/-! ## Key-phrase scanners (`representations/base.py`)

`extract_key_phrases` runs three regexes with `re.IGNORECASE`:
capitalized chains (which under IGNORECASE accept any letter chains of
length at least two), four fixed tech terms, and up-to-three-word
subject phrases followed by a verb lookahead. -/

def takeAlpha (s : Chars) : Chars × Chars :=
  (s.takeWhile (fun c => isAlphaChar c), s.dropWhile (fun c => isAlphaChar c))

def takeWord (s : Chars) : Chars × Chars :=
  (s.takeWhile (fun c => isWordChar c), s.dropWhile (fun c => isWordChar c))

/-- Greedy continuation of a letter chain by `(?:\s+[A-Z][a-z]+)*`
(IGNORECASE): keep appending whitespace plus a clean letter run of at
least two letters.  A run followed by another word character cannot end
at a boundary, so the chain stops before it (regex backtracking pops
the failed repetition). -/
def p1ExtendAux : Nat → Chars → Chars → Chars × Chars
  | 0, acc, s => (acc, s)
  | fuel + 1, acc, s =>
    let (ws, r1) := takeWsRun s
    if ws.isEmpty then (acc, s) else
    let (run, r2) := takeAlpha r1
    if 2 ≤ run.length && endBdry r2 then p1ExtendAux fuel (acc ++ ws ++ run) r2
    else (acc, s)

/-- `\b[A-Z][a-z]+(?:\s+[A-Z][a-z]+)*\b` with IGNORECASE. -/
def stepP1ci (prev : Option Char) (s : Chars) : Option (MVal × Nat) :=
  if !bdry prev then none else
  let (run, rest) := takeAlpha s
  if 2 ≤ run.length && endBdry rest then
    let m := (p1ExtendAux rest.length run rest).1
    some (.one m, m.length)
  else none

/-- `\b(?:artificial intelligence|machine learning|deep learning|neural network)\b`
with IGNORECASE. -/
def stepP2ci (prev : Option Char) (s : Chars) : Option (MVal × Nat) :=
  if !bdry prev then none else
  match matchAltCI ["artificial intelligence".data, "machine learning".data,
      "deep learning".data, "neural network".data] s with
  | some (m, rest) => if endBdry rest then some (.one m, m.length) else none
  | none => none

def p3Verbs : List Chars :=
  ["is".data, "are".data, "was".data, "were".data, "can".data, "will".data,
   "should".data, "could".data]

/-- The lookahead `(?=\s+(?:is|are|...))`: whitespace, then one of the
verbs as a PREFIX of what follows (no closing boundary in the
pattern). -/
def p3Look (s : Chars) : Bool :=
  let (ws, r) := takeWsRun s
  !ws.isEmpty && p3Verbs.any (fun kw => (matchCI kw r).isSome)

/-- Exactly `k` repetitions of `(?:\s+\w+)` with maximal word runs. -/
def p3Extras : Nat → Chars → Chars → Option (Chars × Chars)
  | 0, acc, s => some (acc, s)
  | k + 1, acc, s =>
    let (ws, r1) := takeWsRun s
    if ws.isEmpty then none else
    let (run, r2) := takeWord r1
    if run.isEmpty then none else p3Extras k (acc ++ ws ++ run) r2

/-- `\b\w+(?:\s+\w+){0,2}(?=\s+(?:is|are|was|were|can|will|should|could))\b`
with IGNORECASE; the `{0,2}` repetition is greedy, so three words are
tried first, then two, then one.  Shrinking inside a `\w+` run can
never rescue the lookahead (its `\s+` cannot match a word character),
so trying maximal runs per repetition count is faithful. -/
def stepP3ci (prev : Option Char) (s : Chars) : Option (MVal × Nat) :=
  if !bdry prev then none else
  let (w1, rest) := takeWord s
  if w1.isEmpty then none else
  let cand2 := (p3Extras 2 w1 rest).bind (fun p =>
    if p3Look p.2 then some (MVal.one p.1, p.1.length) else none)
  match cand2 with
  | some r => some r
  | none =>
    let cand1 := (p3Extras 1 w1 rest).bind (fun p =>
      if p3Look p.2 then some (MVal.one p.1, p.1.length) else none)
    match cand1 with
    | some r => some r
    | none => if p3Look rest then some (.one w1, w1.length) else none

/-- Case-sensitive capitalized token `[A-Z][a-z]+` with a clean right
end. -/
def capToken (s : Chars) : Option (Chars × Chars) :=
  match s with
  | [] => none
  | c :: rest =>
    if isUpperChar c then
      let (run, r2) := (rest.takeWhile (fun x => isLowerChar x),
                        rest.dropWhile (fun x => isLowerChar x))
      if 1 ≤ run.length && endBdry r2 then some (c :: run, r2) else none
    else none

def capExtendAux : Nat → Chars → Chars → Chars × Chars
  | 0, acc, s => (acc, s)
  | fuel + 1, acc, s =>
    let (ws, r1) := takeWsRun s
    if ws.isEmpty then (acc, s) else
    match capToken r1 with
    | some (tok, r2) => capExtendAux fuel (acc ++ ws ++ tok) r2
    | none => (acc, s)

/-- `\b[A-Z][a-z]+(?:\s+[A-Z][a-z]+)*\b` WITHOUT IGNORECASE (used by
`extract_main_topics` for capitalized terms). -/
def stepCapChain (prev : Option Char) (s : Chars) : Option (MVal × Nat) :=
  if !bdry prev then none else
  match capToken s with
  | some (tok, rest) =>
    let m := (capExtendAux rest.length tok rest).1
    some (.one m, m.length)
  | none => none

/-- `extract_key_phrases` of `representations/base.py`: the three
patterns in order, per-pattern `len > 3` filter, first-seen dedup,
capped. -/
def extract_key_phrases (content : Chars) (maxPhrases : Nat) : List Chars :=
  let m1 := (findall stepP1ci none content).map mvalRaw
  let m2 := (findall stepP2ci none content).map mvalRaw
  let m3 := (findall stepP3ci none content).map mvalRaw
  let phrases := (m1.filter (fun p => 3 < p.length)) ++
    (m2.filter (fun p => 3 < p.length)) ++ (m3.filter (fun p => 3 < p.length))
  (dedupFirst phrases).take maxPhrases

/-! ## Summary mode (`representations/summary.py`) -/

def calculate_word_count (content : Chars) : Nat := (pyWords content).length

def importanceIndicators : List String :=
  ["important", "key", "main", "primary", "essential", "critical",
   "significant", "major", "crucial", "fundamental", "core",
   "in summary", "to conclude", "overall", "therefore", "thus",
   "as a result", "consequently", "in conclusion"]

/-- `re.search(r'.+\s+KW\s+.+', s, IGNORECASE)` for the definition
patterns: an occurrence of the keyword with a whitespace run directly
before and after it, at least one non-newline character somewhere
before the left run, and at least one non-newline character somewhere
after the right run (the dot of the pattern matches anything except a
newline, and backtracking lets the whitespace runs shrink or grow
freely). -/
def defSearchAux (kw : Chars) : Nat → Chars → Chars → Bool
  | 0, _, _ => false
  | _, _, [] => false
  | fuel + 1, before, c :: rest =>
    (match before with
     | b0 :: bs =>
       isWsChar b0 && bs.any (fun x => x ≠ '\n') &&
       (match matchCI kw (c :: rest) with
        | some (_, after) =>
          (match after with
           | a0 :: as' => isWsChar a0 && as'.any (fun x => x ≠ '\n')
           | [] => false)
        | none => false)
     | [] => false)
    || defSearchAux kw fuel (c :: before) rest

def defSearch (kw : Chars) (s : Chars) : Bool := defSearchAux kw s.length [] s

def definitionKeywords : List Chars :=
  ["is".data, "are".data, "means".data, "refers to".data, "defined as".data]

/-- `extract_key_points`.  The source checks `not in key_points` while
accumulating and deduplicates again at the end while capping at
`max_points`; both are equivalent to collecting all candidate points in
strategy order, first-seen-deduplicating once, and taking the cap. -/
def extract_key_points (content : Chars) (maxPoints : Nat) : List Chars :=
  let paragraphs := extract_paragraphs content
  let sentences := extract_sentences content
  let s1 := (paragraphs.take maxPoints).filterMap (fun para =>
    match extract_sentences para with
    | [] => none
    | s0 :: _ =>
      let fs := pyStrip s0
      if 20 < fs.length then some fs else none)
  let s2 := sentences.filterMap (fun s =>
    if anyKw importanceIndicators (lowerStr s) && 30 < s.length then
      some (pyStrip s)
    else none)
  let s3 := sentences.filterMap (fun s =>
    if hasDigit s && 25 < s.length then some (pyStrip s) else none)
  let s4 := sentences.filterMap (fun s =>
    if definitionKeywords.any (fun kw => defSearch kw s) && 30 < s.length then
      some (pyStrip s)
    else none)
  (dedupFirst (s1 ++ s2 ++ s3 ++ s4)).take maxPoints

/-- Python `max(l, key=f)` (first maximum wins). -/
def pyMaxBy (f : Chars → Nat) : Chars → List Chars → Chars
  | b, [] => b
  | b, x :: xs => if f b < f x then pyMaxBy f x xs else pyMaxBy f b xs

/-- `term_frequency[t] = term_frequency.get(t, 0) + 1`, insertion
ordered like a Python dict. -/
def bumpFreq : List (Chars × Nat) → Chars → List (Chars × Nat)
  | [], t => [(t, 1)]
  | (k, n) :: rest, t =>
    if k = t then (k, n + 1) :: rest else (k, n) :: bumpFreq rest t

/-- Stable descending insertion by frequency (Python
`sorted(..., key=x[1], reverse=True)`). -/
def insertFreqDesc (p : Chars × Nat) : List (Chars × Nat) → List (Chars × Nat)
  | [] => [p]
  | q :: qs => if q.2 ≤ p.2 then p :: q :: qs else q :: insertFreqDesc p qs

def sortFreqDesc (l : List (Chars × Nat)) : List (Chars × Nat) :=
  l.foldr insertFreqDesc []

/-- The topic-selection loop: stop at the cap, skip candidates that
substring-overlap (either direction, case-insensitively) an already
selected topic. -/
def pickTopicsAux (maxT : Nat) : List (Chars × Nat) → List Chars → List Chars
  | [], acc => acc
  | (term, _) :: rest, acc =>
    if maxT ≤ acc.length then acc
    else if acc.any (fun ex => containsSub (lowerStr term) (lowerStr ex) ||
        containsSub (lowerStr ex) (lowerStr term)) then
      pickTopicsAux maxT rest acc
    else pickTopicsAux maxT rest (acc ++ [term])

/-- `extract_main_topics` -/
def extract_main_topics (content : Chars) (maxT : Nat) : List Chars :=
  let key_phrases := extract_key_phrases content 10
  let capitalized := (findall stepCapChain none content).map mvalRaw
  let all_terms := key_phrases ++ capitalized
  let freq := all_terms.foldl (fun acc term =>
    let clean := pyStrip term
    if 3 < clean.length then bumpFreq acc clean else acc) []
  pickTopicsAux maxT (sortFreqDesc freq) []

/-- `extract_main_topic` -/
def extract_main_topic (content : Chars) : Chars :=
  match extract_main_topics content 1 with
  | t :: _ => t
  | [] => "General Information".data

/-- `generate_tldr` -/
def generate_tldr (content : Chars) (key_points : List Chars) : Chars :=
  match key_points with
  | k :: ks =>
    let best := pyMaxBy (fun x => (pyWords x).length) k ks
    let main_topic := extract_main_topic content
    if main_topic ≠ [] && !containsSub (lowerStr main_topic) (lowerStr best) then
      "About ".data ++ main_topic ++ ": ".data ++ best
    else best
  | [] =>
    match (extract_sentences content).find? (fun s => 50 < s.length) with
    | some s => pyStrip s
    | none =>
      let words := pyWords content
      if 20 < words.length then joinSpace (words.take 20) ++ "...".data
      else "Summary not available for this content.".data

def strongIndicators : List String :=
  ["according to", "research shows", "studies indicate", "experts say",
   "it is proven", "evidence suggests", "data reveals", "findings show"]

/-- The apostrophe character tested by `extract_important_quotes`. -/
def aposChar : Char := Char.ofNat 39

/-- `extract_important_quotes` -/
def extract_important_quotes (content : Chars) (maxQuotes : Nat) : List Chars :=
  let sentences := extract_sentences content
  let quoted := sentences.filter (fun s =>
    s.any (fun c => c = '"') || s.any (fun c => c = aposChar))
  let quotes := quoted.take maxQuotes
  let quotes := sentences.foldl (fun acc s =>
    if anyKw strongIndicators (lowerStr s) && acc.length < maxQuotes &&
        !memStr s acc then acc ++ [s]
    else acc) quotes
  let quotes := sentences.foldl (fun acc s =>
    if hasDigit s && acc.length < maxQuotes && !memStr s acc then acc ++ [s]
    else acc) quotes
  quotes.take maxQuotes

/-- `assess_summary_quality` -/
def assess_summary_quality (kp topics : List Chars) : Chars :=
  if 4 ≤ kp.length && 3 ≤ topics.length then "high".data
  else if 2 ≤ kp.length && 2 ≤ topics.length then "medium".data
  else "low".data

/-- Round to nearest integer, ties to even (`round` on a value whose
binary double is not at a representability edge). -/
def roundHalfEven (num den : Int) : Int :=
  let f := num.fdiv den
  let r := num - f * den
  if 2 * r < den then f
  else if den < 2 * r then f + 1
  else if f % 2 = 0 then f else f + 1

/-- Python `round(x, 2)` on a positive-denominator fraction. -/
def pyRound2 (q : Frac) : Frac := ⟨roundHalfEven (q.num * 100) q.den, 100⟩

/-- `SummaryRepresentation.process`.  Its body never raises, so the
`try` wrapper disappears. -/
def summaryProcess (content : Chars) (_prefs : Prefs) : RepResult :=
  if !validate_content content then
    get_error_result "summary".data "Content too short for summarization".data
  else
    let key_points := extract_key_points content 6
    let tldr := generate_tldr content key_points
    let main_topics := extract_main_topics content 5
    let important_quotes := extract_important_quotes content 3
    let original_word_count := calculate_word_count content
    let summary_word_count :=
      calculate_word_count (joinSpace key_points ++ ' ' :: tldr)
    let compression_ratio : Frac :=
      if 0 < original_word_count then
        pyRound2 ((Frac.ofInt summary_word_count).divF
          (Frac.ofInt original_word_count))
      else .ofInt 0
    { mode := "summary".data,
      content := .dict
        [("tldr".data, .str tldr),
         ("key_points".data, .list (key_points.map Val.str)),
         ("main_topics".data, .list (main_topics.map Val.str)),
         ("important_quotes".data, .list (important_quotes.map Val.str)),
         ("full_content".data, .str content),
         ("metrics".data, .dict
           [("original_words".data, .int original_word_count),
            ("summary_words".data, .int summary_word_count),
            ("compression_ratio".data, .rat compression_ratio),
            ("key_points_count".data, .int key_points.length)])],
      metadata := .dict
        [("compression_ratio".data, .rat compression_ratio),
         ("key_point_count".data, .int key_points.length),
         ("main_topics_count".data, .int main_topics.length),
         ("summary_quality".data,
          .str (assess_summary_quality key_points main_topics))],
      css_classes := ["summary".data, "condensed".data, "key-points".data],
      frontend_config := some (.dict
        [("enable_expand".data, .bool true),
         ("show_metrics".data, .bool true),
         ("highlight_key_points".data, .bool true)]) }

/-- The compression ratio a summary result reports. -/
def getRatioFrac (r : RepResult) : Option Frac :=
  match r.metadata.dget "compression_ratio".data with
  | some (.rat f) => some f
  | _ => none

/-! ### Non-emptiness lemmas for the summary word counts -/

theorem dropWhile_head_false {p : Char → Bool} {l : Chars} {d : Char} {ds : Chars}
    (h : l.dropWhile p = d :: ds) : p d = false := by
  induction l with
  | nil => cases h
  | cons c rest ih =>
    rw [List.dropWhile_cons] at h
    by_cases hc : p c
    · rw [if_pos hc] at h
      exact ih h
    · rw [if_neg hc] at h
      cases h
      simpa using hc

theorem lstrip_head {y : Chars} {d : Char} {ds : Chars}
    (h : lstrip y = d :: ds) : isWsChar d = false :=
  dropWhile_head_false h

theorem rstrip_prefix (l : Chars) : rstrip l <+: l := by
  have hsuf : l.reverse.dropWhile (fun c => isWsChar c) <:+ l.reverse :=
    List.dropWhile_suffix _
  have := List.reverse_prefix.mpr (by simpa using hsuf)
  simpa [rstrip] using this

theorem rstrip_head {l : Chars} {d : Char} {ds : Chars}
    (h : rstrip l = d :: ds) : ∃ t, l = d :: t := by
  rcases rstrip_prefix l with ⟨t, ht⟩
  rw [h] at ht
  exact ⟨ds ++ t, by simpa using ht.symm⟩

/-- A non-empty stripped string starts with (hence contains) a
non-whitespace character. -/
theorem nonws_of_pyStrip_ne_nil {y : Chars} (h : pyStrip y ≠ []) :
    ∃ c ∈ pyStrip y, isWsChar c = false := by
  unfold pyStrip at h ⊢
  rcases hr : rstrip (lstrip y) with _ | ⟨d, ds⟩
  · exact absurd hr h
  · rcases rstrip_head hr with ⟨t, ht⟩
    have hd : isWsChar d = false := lstrip_head ht
    exact ⟨d, by simp [hr], hd⟩

theorem pyWordsAux_ne_nil :
    ∀ (s acc : Chars), ((∃ c ∈ s, isWsChar c = false) ∨ acc ≠ []) →
      pyWordsAux s acc ≠ [] := by
  intro s
  induction s with
  | nil =>
    intro acc h
    rcases h with ⟨c, hc, _⟩ | hacc
    · cases hc
    · unfold pyWordsAux
      rw [if_neg (by simpa using hacc)]
      simp
  | cons c rest ih =>
    intro acc h
    unfold pyWordsAux
    by_cases hw : isWsChar c
    · rw [if_pos hw]
      by_cases hacc : acc.isEmpty
      · rw [if_pos hacc]
        apply ih
        left
        rcases h with ⟨x, hx, hxw⟩ | hne
        · rcases List.mem_cons.mp hx with rfl | hx'
          · rw [hw] at hxw; cases hxw
          · exact ⟨x, hx', hxw⟩
        · exact absurd (List.isEmpty_iff.mp hacc) hne
      · rw [if_neg hacc]
        simp
    · rw [if_neg hw]
      apply ih
      right
      simp

theorem pyWords_pos {s : Chars} (h : ∃ c ∈ s, isWsChar c = false) :
    0 < (pyWords s).length := by
  have := pyWordsAux_ne_nil s [] (Or.inl h)
  exact List.length_pos.mpr this

theorem validate_nonws {content : Chars} (h : validate_content content = true) :
    ∃ c ∈ content, isWsChar c = false := by
  unfold validate_content at h
  simp only [Bool.not_eq_true', Bool.or_eq_false_iff, decide_eq_false_iff_not,
    not_lt] at h
  have hne : pyStrip content ≠ [] := by
    intro hnil
    have := h.2
    rw [hnil] at this
    simp at this
  have hls : lstrip content ≠ [] := by
    intro hnil
    apply hne
    unfold pyStrip
    rw [hnil]
    rfl
  rcases hl : lstrip content with _ | ⟨d, ds⟩
  · exact absurd hl hls
  · refine ⟨d, ?_, lstrip_head hl⟩
    have : d ∈ lstrip content := by rw [hl]; simp
    unfold lstrip at this
    exact (List.dropWhile_suffix _).subset this

theorem mem_dedupFirstAux :
    ∀ (fuel : Nat) (l : List Chars) (x : Chars), x ∈ dedupFirstAux fuel l → x ∈ l := by
  intro fuel
  induction fuel with
  | zero =>
    intro l x h
    cases l with
    | nil => simpa [dedupFirstAux] using h
    | cons a as => simpa [dedupFirstAux] using h
  | succ fuel ih =>
    intro l x h
    cases l with
    | nil => simpa [dedupFirstAux] using h
    | cons a as =>
      unfold dedupFirstAux at h
      rcases List.mem_cons.mp h with rfl | h'
      · simp
      · have := ih _ _ h'
        have := List.mem_of_mem_filter this
        simp [this]

theorem pyMaxBy_mem (f : Chars → Nat) :
    ∀ (l : List Chars) (b : Chars), pyMaxBy f b l = b ∨ pyMaxBy f b l ∈ l := by
  intro l
  induction l with
  | nil => intro b; left; rfl
  | cons x xs ih =>
    intro b
    unfold pyMaxBy
    split
    · rcases ih x with h | h
      · right; rw [h]; simp
      · right; exact List.mem_cons_of_mem _ h
    · rcases ih b with h | h
      · left; exact h
      · right; exact List.mem_cons_of_mem _ h

theorem dropWhile_idem {p : Char → Bool} {l : Chars} :
    (l.dropWhile p).dropWhile p = l.dropWhile p := by
  rcases h : l.dropWhile p with _ | ⟨d, ds⟩
  · simp
  · have hd := dropWhile_head_false h
    rw [List.dropWhile_cons, if_neg (by simp [hd])]

theorem rstrip_idem {l : Chars} : rstrip (rstrip l) = rstrip l := by
  unfold rstrip
  rw [List.reverse_reverse, dropWhile_idem]

theorem lstrip_of_head_nonws {d : Char} {t : Chars} (h : isWsChar d = false) :
    lstrip (d :: t) = d :: t := by
  unfold lstrip
  rw [List.dropWhile_cons, if_neg (by simp [h])]

theorem pyStrip_idem {y : Chars} : pyStrip (pyStrip y) = pyStrip y := by
  unfold pyStrip
  rcases h : rstrip (lstrip y) with _ | ⟨d, ds⟩
  · rfl
  · have hd : isWsChar d = false := by
      rcases rstrip_head h with ⟨t, ht⟩
      exact lstrip_head ht
    rw [lstrip_of_head_nonws hd, ← h, rstrip_idem]

theorem sentence_shape {content s : Chars} (h : s ∈ extract_sentences content) :
    s ≠ [] ∧ ∃ y, s = pyStrip y := by
  unfold extract_sentences at h
  have hmem := List.mem_of_mem_filter h
  have hne := List.of_mem_filter h
  rcases List.mem_map.mp hmem with ⟨y, _, hy⟩
  exact ⟨by simpa using hne, y, hy.symm⟩

/-- Every key point contains a non-whitespace character: each strategy
appends a stripped sentence whose (stripped) length is checked. -/
theorem keypoint_nonws {content : Chars} {n : Nat} :
    ∀ p ∈ extract_key_points content n, ∃ c ∈ p, isWsChar c = false := by
  intro p hp
  unfold extract_key_points at hp
  have hp1 := List.mem_of_mem_take hp
  have hp2 := mem_dedupFirstAux _ _ _ hp1
  have hstrip : ∀ s : Chars, s ∈ extract_sentences content →
      ∃ c ∈ pyStrip s, isWsChar c = false := by
    intro s hs
    rcases sentence_shape hs with ⟨hne, y, hy⟩
    have hq2 : pyStrip s = s := by rw [hy, pyStrip_idem]
    rw [hq2, hy]
    exact nonws_of_pyStrip_ne_nil (hy ▸ hne)
  rcases List.mem_append.mp hp2 with h12 | h4
  · rcases List.mem_append.mp h12 with h123 | h3
    · rcases List.mem_append.mp h123 with h1 | h2
      · rcases List.mem_filterMap.mp h1 with ⟨para, _, heq⟩
        rcases hps : extract_sentences para with _ | ⟨s0, rest0⟩ <;> rw [hps] at heq
        · cases heq
        · dsimp only at heq
          by_cases hlen : 20 < (pyStrip s0).length
          · rw [if_pos hlen] at heq
            cases heq
            apply nonws_of_pyStrip_ne_nil
            intro hnil
            rw [hnil] at hlen
            simp at hlen
          · rw [if_neg hlen] at heq
            cases heq
      · rcases List.mem_filterMap.mp h2 with ⟨s, hs, heq⟩
        split at heq
        · cases heq; exact hstrip s hs
        · cases heq
    · rcases List.mem_filterMap.mp h3 with ⟨s, hs, heq⟩
      split at heq
      · cases heq; exact hstrip s hs
      · cases heq
  · rcases List.mem_filterMap.mp h4 with ⟨s, hs, heq⟩
    split at heq
    · cases heq; exact hstrip s hs
    · cases heq

/-- Every branch of `generate_tldr` returns a string containing a
non-whitespace character. -/
theorem tldr_nonws (content : Chars) (kp : List Chars)
    (hkp : ∀ p ∈ kp, ∃ c ∈ p, isWsChar c = false) :
    ∃ c ∈ generate_tldr content kp, isWsChar c = false := by
  unfold generate_tldr
  cases kp with
  | cons k ks =>
    dsimp only
    have hbestmem := pyMaxBy_mem (fun x => (pyWords x).length) ks k
    have hbkp : pyMaxBy (fun x => (pyWords x).length) k ks ∈ k :: ks := by
      rcases hbestmem with h | h
      · rw [h]; simp
      · exact List.mem_cons_of_mem _ h
    rcases hkp _ hbkp with ⟨c, hc, hcw⟩
    split
    · exact ⟨c, by simp [hc], hcw⟩
    · exact ⟨c, hc, hcw⟩
  | nil =>
    dsimp only
    split
    · rename_i s hfind
      have hs := List.mem_of_find?_eq_some hfind
      rcases sentence_shape hs with ⟨hne, y, hy⟩
      have hq2 : pyStrip s = s := by rw [hy, pyStrip_idem]
      rw [hq2, hy]
      exact nonws_of_pyStrip_ne_nil (hy ▸ hne)
    · by_cases hw : 20 < (pyWords content).length
      · rw [if_pos hw]
        refine ⟨'.', ?_, by decide⟩
        simp
      · rw [if_neg hw]
        decide

/-! ## C8 -/

/-- Two sentences in one paragraph; the second is picked up both as a
definition-pattern key point and as the TL;DR source, so the summary
repeats it and the word ratio exceeds 1. -/
def cexSummaryContent : Chars :=
  "Quantum computing is promising. Research proves quantum computing is gaining 50% more attention.".data

/-- C8, counterexample: on `cexSummaryContent` (which passes
validation) the reported compression ratio is `2.08`, outside `(0,1]`:
the TL;DR duplicates the longest key point, so
`word_count(points+TLDR)` exceeds `word_count(original)`. -/
theorem summary_ratio_exceeds_one_cex :
    validate_content cexSummaryContent = true ∧
    getRatioFrac (summaryProcess cexSummaryContent []) = some ⟨208, 100⟩ ∧
    Frac.ltF ⟨1, 1⟩ ⟨208, 100⟩ = true := by
  decide

/-- C8 (amended): for every input passing validation the reported
compression ratio equals `round(word_count(points+TLDR) /
word_count(original), 2)` with both word counts positive — so the
pre-rounding ratio is a positive rational — but the value is NOT
confined to `(0,1]` (see the counterexample). -/
theorem summary_ratio_formula_pos :
    ∀ content prefs, validate_content content = true →
      0 < calculate_word_count content ∧
      0 < calculate_word_count (joinSpace (extract_key_points content 6) ++ ' ' ::
          generate_tldr content (extract_key_points content 6)) ∧
      getRatioFrac (summaryProcess content prefs) =
        some (pyRound2 ((Frac.ofInt (calculate_word_count
            (joinSpace (extract_key_points content 6) ++ ' ' ::
              generate_tldr content (extract_key_points content 6)))).divF
          (Frac.ofInt (calculate_word_count content)))) := by
  intro content prefs h
  have how : 0 < calculate_word_count content := pyWords_pos (validate_nonws h)
  have hsw : 0 < calculate_word_count (joinSpace (extract_key_points content 6) ++
      ' ' :: generate_tldr content (extract_key_points content 6)) := by
    apply pyWords_pos
    rcases tldr_nonws content _ (@keypoint_nonws content 6)
      with ⟨c, hc, hcw⟩
    exact ⟨c, by simp [hc], hcw⟩
  refine ⟨how, hsw, ?_⟩
  simp only [summaryProcess, h, Bool.not_true, Bool.false_eq_true, if_false]
  rw [if_pos how]
  rfl

/-- C8, witness: the amended theorem applied to the counterexample
content. -/
theorem summary_ratio_formula_pos_witness :
    0 < calculate_word_count cexSummaryContent ∧
    0 < calculate_word_count (joinSpace (extract_key_points cexSummaryContent 6) ++
        ' ' :: generate_tldr cexSummaryContent (extract_key_points cexSummaryContent 6)) ∧
    getRatioFrac (summaryProcess cexSummaryContent []) =
      some (pyRound2 ((Frac.ofInt (calculate_word_count
          (joinSpace (extract_key_points cexSummaryContent 6) ++ ' ' ::
            generate_tldr cexSummaryContent (extract_key_points cexSummaryContent 6)))).divF
        (Frac.ofInt (calculate_word_count cexSummaryContent)))) :=
  summary_ratio_formula_pos cexSummaryContent [] (by decide)

/-! ## Knowledge-graph mode (`representations/knowledge_graph.py`)

`extract_entities_enhanced` collects candidate strings with four
regexes into a Python `set` whose iteration order is
interpreter-dependent, and `extract_relationships_enhanced` runs
fourteen relationship regexes over the content.  Both regex stages are
modelled as oracle inputs (`KgEnv`): the candidate names in their
iteration order, and the per-pattern `findall` pair lists.  Everything
downstream of the regex calls — filtering, classification, importance,
sorting, capping, entity matching and edge construction — is embedded
from the source, and the claims proved here hold for every oracle. -/

structure KgEnv where
  names : List Chars
  relMatches : List (List (Chars × Chars))

structure KEntity where
  id : Chars
  name : Chars
  etype : Chars
  importance : Int
  description : Chars
  color : Chars
  size : Int
deriving DecidableEq

/-- Edge dictionary (`from`/`to` are the `source`/`target` fields
here, `from` being reserved in Lean). -/
structure KEdge where
  id : Chars
  source : Chars
  target : Chars
  label : Chars
  relationship : Chars
  strength : Int
  etype : Chars
  color : Chars
  width : Int
deriving DecidableEq

def Frac.max0 (a : Frac) : Frac := if a.ltF ⟨0, 1⟩ then ⟨0, 1⟩ else a

def techCats : List (Chars × List String) :=
  [("ai".data, ["artificial", "intelligence", "machine", "learning", "neural", "deep"]),
   ("computing".data, ["computer", "cpu", "gpu", "quantum", "cloud", "server"]),
   ("software".data, ["application", "program", "software", "framework", "library"]),
   ("data".data, ["database", "data", "analytics", "big data", "dataset"]),
   ("web".data, ["website", "web", "internet", "html", "css", "javascript"]),
   ("mobile".data, ["mobile", "app", "android", "ios", "smartphone"])]

def scienceCats : List (Chars × List String) :=
  [("physics".data, ["atom", "electron", "photon", "quantum", "particle", "energy"]),
   ("biology".data, ["cell", "dna", "protein", "gene", "organism", "species"]),
   ("chemistry".data, ["molecule", "compound", "reaction", "element", "chemical"]),
   ("mathematics".data, ["equation", "algorithm", "formula", "calculation", "number"])]

/-- `classify_entity_enhanced` -/
def classify_entity_enhanced (entity content : Chars) : Chars :=
  let entity_lower := lowerStr entity
  let context_lower := lowerStr content
  match techCats.find? (fun p => anyKw p.2 entity_lower) with
  | some p => "technology_".data ++ p.1
  | none =>
  match scienceCats.find? (fun p => anyKw p.2 entity_lower) with
  | some p => "science_".data ++ p.1
  | none =>
  if anyKw ["company", "corporation", "business", "organization", "enterprise",
      "firm"] entity_lower then "organization".data
  else if (match entity with
           | c :: _ => isUpperChar c
           | [] => false) &&
      anyKw ["founder", "ceo", "scientist", "researcher", "inventor"]
        context_lower then "person".data
  else if anyKw ["city", "country", "state", "region", "area", "location"]
      context_lower then "location".data
  else if anyKw ["process", "method", "technique", "approach", "procedure",
      "strategy"] entity_lower then "process".data
  else "concept".data

def isWordOpt : Option Char → Bool
  | none => false
  | some c => isWordChar c

/-- A `\b`-delimited occurrence of `needle` in `hay`: `\b` holds at a
position exactly when the word-character status changes across it (a
string edge counts as non-word). -/
def wordOccursAux (needle : Chars) : Option Char → Chars → Bool
  | _, [] => false
  | prev, c :: rest =>
    (match needle with
     | [] => false
     | n0 :: _ =>
       (isWordOpt prev ≠ isWordChar n0 : Bool) &&
       hasPrefix needle (c :: rest) &&
       (match needle.getLast? with
        | some nl =>
          (isWordChar nl ≠ isWordOpt ((c :: rest).drop needle.length).head? : Bool)
        | none => false))
    || wordOccursAux needle (some c) rest

def wordOccurs (needle hay : Chars) : Bool := wordOccursAux needle none hay

def importanceIndicatorsKg : List String :=
  ["important", "key", "main", "primary", "central", "core", "fundamental",
   "essential", "critical", "significant", "major", "crucial"]

/-- The co-occurrence regex of `calculate_entity_importance`: the
indicator and the entity, each `\b`-delimited, with an arbitrary
newline-free gap, in either order — i.e. both occur within the same
newline-free stretch of the text. -/
def lineCooccur (ind ent content_lower : Chars) : Bool :=
  (splitAny (fun c => c = '\n') content_lower).any (fun line =>
    wordOccurs ind line && wordOccurs ent line)

/-- `calculate_entity_importance`.  On validated content the length of
`content_lower` is positive; the division of the position boost is
modelled exactly on fractions. -/
def calculate_entity_importance (entity content : Chars) : Int :=
  let content_lower := lowerStr content
  let entity_lower := lowerStr entity
  let frequency : Int := countSub entity_lower content_lower
  let context_boost : Int := 2 *
    (importanceIndicatorsKg.countP (fun ind => lineCooccur ind.data entity_lower content_lower))
  let first_occurrence := findSub entity_lower content_lower
  let position_boost :=
    ((Frac.ofInt 3).sub (Frac.mulInt ⟨first_occurrence, content_lower.length⟩ 3)).max0
  frequency + context_boost + position_boost.toIntTrunc

/-- `generate_entity_description` -/
def generate_entity_description (entity content : Chars) : Chars :=
  let entity_lower := lowerStr entity
  let sentences := extract_sentences content
  match sentences.find? (fun s => containsSub entity_lower (lowerStr s)) with
  | some s => if 100 < s.length then s.take 97 ++ "...".data else s
  | none => "Concept: ".data ++ entity

/-- `get_entity_color` -/
def get_entity_color (t : Chars) : Chars :=
  let colorMap : List (Chars × Chars) :=
    [("technology_ai".data, "#3B82F6".data),
     ("technology_computing".data, "#6366F1".data),
     ("technology_software".data, "#8B5CF6".data),
     ("technology_data".data, "#06B6D4".data),
     ("technology_web".data, "#10B981".data),
     ("technology_mobile".data, "#F59E0B".data),
     ("science_physics".data, "#EF4444".data),
     ("science_biology".data, "#84CC16".data),
     ("science_chemistry".data, "#F97316".data),
     ("science_mathematics".data, "#EC4899".data),
     ("organization".data, "#6B7280".data),
     ("person".data, "#DC2626".data),
     ("location".data, "#059669".data),
     ("process".data, "#7C3AED".data),
     ("concept".data, "#4B5563".data)]
  match colorMap.find? (fun p => p.1 = t) with
  | some p => p.2
  | none => "#4B5563".data

/-- Stable descending insertion sort by importance
(`entities.sort(key=..., reverse=True)`). -/
def insertImpDesc (e : KEntity) : List KEntity → List KEntity
  | [] => [e]
  | x :: xs => if x.importance ≤ e.importance then e :: x :: xs
    else x :: insertImpDesc e xs

def sortImpDesc (l : List KEntity) : List KEntity := l.foldr insertImpDesc []

/-- `extract_entities_enhanced` downstream of the regex set: enumerate
the candidate names (ids keep the enumeration index), skip names
shorter than 3 characters, classify and score, sort by importance
descending and keep the top 20. -/
def extract_entities_enhanced (content : Chars) (names : List Chars) : List KEntity :=
  let entities := names.enum.filterMap (fun p =>
    if p.2.length < 3 then none
    else
      let etype := classify_entity_enhanced p.2 content
      let importance := calculate_entity_importance p.2 content
      some { id := "node_".data ++ natDigits p.1,
             name := p.2,
             etype := etype,
             importance := importance,
             description := generate_entity_description p.2 content,
             color := get_entity_color etype,
             size := min (max 10 (importance * 5)) 30 })
  (sortImpDesc entities).take 20

/-- `words_overlap` -/
def words_overlap (t1 t2 : Chars) : Bool :=
  (pyWords t1).any (fun w => memStr w (pyWords t2))

/-- `find_best_entity_match`: exact lowercase name match first, then
containment either way or any shared word. -/
def find_best_entity_match (entities : List KEntity) (name : Chars) :
    Option KEntity :=
  let name_lower := pyStrip (lowerStr name)
  match entities.find? (fun e => lowerStr e.name = name_lower) with
  | some e => some e
  | none =>
    entities.find? (fun e =>
      containsSub name_lower (lowerStr e.name) ||
      containsSub (lowerStr e.name) name_lower ||
      words_overlap name_lower (lowerStr e.name))

/-- `calculate_relationship_strength` -/
def calculate_relationship_strength (source target content : Chars) : Int :=
  let content_lower := lowerStr content
  let sentences := extract_sentences content
  let co : Int := sentences.countP (fun s =>
    containsSub (lowerStr source) (lowerStr s) &&
    containsSub (lowerStr target) (lowerStr s))
  let spos := findSub (lowerStr source) content_lower
  let tpos := findSub (lowerStr target) content_lower
  let proximity : Int :=
    if spos ≠ -1 && tpos ≠ -1 then
      (((Frac.ofInt 3).sub ⟨|spos - tpos|, 100⟩).max0).toIntTrunc
    else 0
  max 1 (co + proximity)

def relTypes : List Chars :=
  ["is_a".data, "has".data, "uses".data, "creates".data, "enables".data,
   "requires".data, "implements".data, "extends".data, "interacts_with".data,
   "processes".data, "stores".data, "connects_to".data, "related_to".data,
   "alternative_to".data]

/-- `get_relationship_color` -/
def get_relationship_color (t : Chars) : Chars :=
  let colorMap : List (Chars × Chars) :=
    [("is_a".data, "#3B82F6".data), ("has".data, "#10B981".data),
     ("uses".data, "#F59E0B".data), ("creates".data, "#EF4444".data),
     ("enables".data, "#8B5CF6".data), ("requires".data, "#EC4899".data),
     ("implements".data, "#06B6D4".data), ("extends".data, "#84CC16".data),
     ("interacts_with".data, "#F97316".data), ("processes".data, "#6366F1".data),
     ("stores".data, "#059669".data), ("connects_to".data, "#DC2626".data),
     ("related_to".data, "#6B7280".data), ("alternative_to".data, "#7C3AED".data)]
  match colorMap.find? (fun p => p.1 = t) with
  | some p => p.2
  | none => "#6B7280".data

def underscoreToSpace (s : Chars) : Chars :=
  s.map (fun c => if c = '_' then ' ' else c)

/-- `extract_relationships_enhanced` downstream of the regexes: for
each pattern (in order) and each of its matches, strip the two
captures, resolve both against the entity list, and append an edge only
when both resolve to different entity ids. -/
def extract_relationships_enhanced (entities : List KEntity) (content : Chars)
    (relMatches : List (List (Chars × Chars))) : List KEdge :=
  relTypes.enum.foldl (fun acc p =>
    (relMatches.getD p.1 []).foldl (fun acc2 m =>
      let source_name := pyStrip m.1
      let target_name := pyStrip m.2
      match find_best_entity_match entities source_name,
            find_best_entity_match entities target_name with
      | some se, some te =>
        if se.id ≠ te.id then
          let strength := calculate_relationship_strength source_name target_name content
          acc2 ++ [{ id := "edge_".data ++ natDigits p.1 ++ '_' :: natDigits acc2.length,
                     source := se.id,
                     target := te.id,
                     label := underscoreToSpace p.2,
                     relationship := p.2,
                     strength := strength,
                     etype := "semantic".data,
                     color := get_relationship_color p.2,
                     width := min (max 1 strength) 4 }]
        else acc2
      | _, _ => acc2) acc) []

def kgEntities (env : KgEnv) (content : Chars) : List KEntity :=
  extract_entities_enhanced content env.names

def kgRelationships (env : KgEnv) (content : Chars) : List KEdge :=
  extract_relationships_enhanced (kgEntities env content) content env.relMatches

def kentityVal (e : KEntity) : Val :=
  .dict [("id".data, .str e.id), ("name".data, .str e.name),
         ("type".data, .str e.etype), ("importance".data, .int e.importance),
         ("description".data, .str e.description), ("color".data, .str e.color),
         ("size".data, .int e.size)]

def kedgeVal (e : KEdge) : Val :=
  .dict [("id".data, .str e.id), ("from".data, .str e.source),
         ("to".data, .str e.target), ("label".data, .str e.label),
         ("relationship".data, .str e.relationship),
         ("strength".data, .int e.strength), ("type".data, .str e.etype),
         ("color".data, .str e.color), ("width".data, .int e.width)]

/-- `format_for_visjs`: one vis.js node per entity, one vis.js edge per
relationship. -/
def visNode (e : KEntity) : Val :=
  .dict [("id".data, .str e.id), ("label".data, .str e.name),
         ("title".data, .str e.description), ("group".data, .str e.etype),
         ("size".data, .int e.size),
         ("color".data, .dict
           [("background".data, .str e.color),
            ("border".data, .str "#2D3748".data),
            ("highlight".data, .dict
              [("background".data, .str "#FBBF24".data),
               ("border".data, .str "#92400E".data)])]),
         ("font".data, .dict
           [("size".data, .int 12), ("color".data, .str "#1F2937".data)]),
         ("physics".data, .bool true), ("value".data, .int e.importance)]

def visEdge (r : KEdge) : Val :=
  .dict [("id".data, .str r.id), ("from".data, .str r.source),
         ("to".data, .str r.target), ("label".data, .str r.label),
         ("title".data, .str (r.relationship ++ ": ".data ++ r.label)),
         ("width".data, .int r.width),
         ("color".data, .dict
           [("color".data, .str r.color),
            ("highlight".data, .str "#F59E0B".data)]),
         ("arrows".data, .dict
           [("to".data, .dict
             [("enabled".data, .bool true),
              ("scaleFactor".data, .rat ⟨8, 10⟩)])]),
         ("smooth".data, .dict
           [("enabled".data, .bool true),
            ("type".data, .str "continuous".data)]),
         ("physics".data, .bool true)]

/-- `calculate_complexity` -/
def calculate_complexity (node_count edge_count : Nat) : Chars :=
  let total := node_count + edge_count
  if total < 10 then "low".data
  else if total < 25 then "medium".data
  else "high".data

/-- `KnowledgeGraphRepresentation.process` (body exception-free in this
model, so the `try` wrapper disappears). -/
def kgProcess (env : KgEnv) (content : Chars) (_prefs : Prefs) : RepResult :=
  if !validate_content content then
    get_error_result "knowledge_graph".data
      "Content too short for knowledge graph generation".data
  else
    let entities := kgEntities env content
    let relationships := kgRelationships env content
    let nodes := entities.map visNode
    let edges := relationships.map visEdge
    let node_count := nodes.length
    let edge_count := edges.length
    let complexity := calculate_complexity node_count edge_count
    { mode := "knowledge_graph".data,
      content := .dict
        [("graph_data".data, .dict
           [("nodes".data, .list nodes), ("edges".data, .list edges)]),
         ("entities".data, .list (entities.map kentityVal)),
         ("relationships".data, .list (relationships.map kedgeVal)),
         ("stats".data, .dict
           [("node_count".data, .int node_count),
            ("edge_count".data, .int edge_count),
            ("complexity".data, .str complexity)])],
      metadata := .dict
        [("node_count".data, .int node_count),
         ("edge_count".data, .int edge_count),
         ("complexity".data, .str complexity),
         ("processing_method".data, .str "enhanced_nlp".data)],
      css_classes := ["knowledge-graph".data, "interactive-viz".data],
      javascript_code := some "initializeKnowledgeGraph".data,
      frontend_config := some (.dict
        [("container_id".data, .str "knowledge-graph".data),
         ("auto_resize".data, .bool true),
         ("physics_enabled".data, .bool true),
         ("interaction_enabled".data, .bool true)]) }

/-! ## C6 -/

theorem find_best_mem {entities : List KEntity} {name : Chars} {e : KEntity}
    (h : find_best_entity_match entities name = some e) : e ∈ entities := by
  unfold find_best_entity_match at h
  dsimp only at h
  split at h
  · cases h
    exact List.mem_of_find?_eq_some (by assumption)
  · exact List.mem_of_find?_eq_some h

theorem foldl_mem_preserve {α β : Type} (P : β → Prop) (f : List β → α → List β)
    (hf : ∀ acc a, (∀ x ∈ acc, P x) → ∀ x ∈ f acc a, P x) :
    ∀ (l : List α) (acc : List β), (∀ x ∈ acc, P x) → ∀ x ∈ l.foldl f acc, P x := by
  intro l
  induction l with
  | nil => intro acc h x hx; exact h x hx
  | cons a as ih => intro acc h x hx; exact ih _ (hf acc a h) x hx

/-- C6: in every knowledge-graph Result, the entity list is capped at
20, every edge's endpoints are ids of entities returned in the same
Result, and no edge is a self-loop — for every content string and every
outcome of the regex stages (candidate names and pattern matches). -/
theorem kg_result_invariants :
    ∀ env content,
      (kgEntities env content).length ≤ 20 ∧
      (∀ e ∈ kgRelationships env content,
        e.source ≠ e.target ∧
        e.source ∈ (kgEntities env content).map KEntity.id ∧
        e.target ∈ (kgEntities env content).map KEntity.id) ∧
      (∀ prefs, validate_content content = true →
        (kgProcess env content prefs).content.dget "entities".data =
          some (.list ((kgEntities env content).map kentityVal)) ∧
        (kgProcess env content prefs).content.dget "relationships".data =
          some (.list ((kgRelationships env content).map kedgeVal)) ∧
        (kgProcess env content prefs).metadata.dget "node_count".data =
          some (.int ((kgEntities env content).length))) := by
  intro env content
  refine ⟨?_, ?_, ?_⟩
  · unfold kgEntities extract_entities_enhanced
    exact List.length_take_le 20 _
  · set ents := kgEntities env content with hents
    intro e he
    unfold kgRelationships extract_relationships_enhanced at he
    rw [← hents] at he
    refine foldl_mem_preserve
      (fun x => x.source ≠ x.target ∧ x.source ∈ ents.map KEntity.id ∧
        x.target ∈ ents.map KEntity.id) _ ?_ _ _ (by intro x hx; cases hx) e he
    intro acc p hacc
    refine foldl_mem_preserve _ _ ?_ _ _ hacc
    intro acc2 m hacc2 x hx
    dsimp only at hx
    split at hx
    · rename_i se te hs ht
      by_cases hne : se.id ≠ te.id
      · rw [if_pos hne] at hx
        rcases List.mem_append.mp hx with hold | hnew
        · exact hacc2 x hold
        · simp only [List.mem_singleton] at hnew
          subst hnew
          refine ⟨hne, ?_, ?_⟩
          · exact List.mem_map.mpr ⟨se, find_best_mem hs, rfl⟩
          · exact List.mem_map.mpr ⟨te, find_best_mem ht, rfl⟩
      · rw [if_neg hne] at hx
        exact hacc2 x hx
    · exact hacc2 x hx
  · intro prefs h
    simp only [kgProcess, h, Bool.not_true, Bool.false_eq_true, if_false]
    refine ⟨rfl, rfl, ?_⟩
    simp [Val.dget, List.length_map]

def kgCexEnv : KgEnv :=
  ⟨["Alpha".data, "Beta".data], [[], [], [("Alpha".data, "Beta".data)]]⟩

def kgCexContent : Chars := "Alpha uses Beta today.".data

def defaultKEdge : KEdge := ⟨[], [], [], [], [], 0, [], [], 0⟩

def kgCexEdge : KEdge := (kgRelationships kgCexEnv kgCexContent).getD 0 defaultKEdge

/-- C6, witness: a concrete graph with one `uses` edge satisfies the
invariants. -/
theorem kg_result_invariants_witness :
    (kgCexEdge.source ≠ kgCexEdge.target ∧
     kgCexEdge.source ∈ (kgEntities kgCexEnv kgCexContent).map KEntity.id ∧
     kgCexEdge.target ∈ (kgEntities kgCexEnv kgCexContent).map KEntity.id) ∧
    ((kgProcess kgCexEnv kgCexContent []).content.dget "entities".data =
      some (.list ((kgEntities kgCexEnv kgCexContent).map kentityVal)) ∧
     (kgProcess kgCexEnv kgCexContent []).content.dget "relationships".data =
      some (.list ((kgRelationships kgCexEnv kgCexContent).map kedgeVal)) ∧
     (kgProcess kgCexEnv kgCexContent []).metadata.dget "node_count".data =
      some (.int ((kgEntities kgCexEnv kgCexContent).length))) :=
  ⟨(kg_result_invariants kgCexEnv kgCexContent).2.1 kgCexEdge (by decide),
   (kg_result_invariants kgCexEnv kgCexContent).2.2 [] (by decide)⟩


/-! ## Per-mode `process` guards (C2)

The modes `plain_text`, `color_coded`, `collapsible_concepts` and
`puzzle_based` check `validate_content` first and return the error
Result before entering their `try` block, so the rest of each body never
influences the short-content behaviour; it enters the embedding as an
arbitrary total function `body` (the `except` clause of the source also
returns a Result, so `process` is total either way). -/

def plain_text_process (body : Chars → Prefs → RepResult)
    (content : Chars) (prefs : Prefs) : RepResult :=
  if !validate_content content then
    get_error_result "plain_text".data "Content too short for processing".data
  else body content prefs

def color_coded_process (body : Chars → Prefs → RepResult)
    (content : Chars) (prefs : Prefs) : RepResult :=
  if !validate_content content then
    get_error_result "color_coded".data
      "Content too short for color coding".data
  else body content prefs

def collapsible_concepts_process (body : Chars → Prefs → RepResult)
    (content : Chars) (prefs : Prefs) : RepResult :=
  if !validate_content content then
    get_error_result "collapsible_concepts".data
      "Content too short for concept extraction".data
  else body content prefs

/-- `PuzzleBasedRepresentation.validate_content`: overridden minimum of
100 characters after stripping. -/
def puzzle_validate_content (content : Chars) : Bool :=
  !(content.isEmpty || (pyStrip content).length < 100)

/-- `PuzzleBasedRepresentation.get_error_result`: the override keeps
`metadata.error=True` and the message but replaces the generic
`fallback_content` field with a fallback `segments` payload. -/
def puzzle_get_error_result (msg : Chars) : RepResult :=
  { mode := "puzzle_based".data,
    content := .dict
      [("error".data, .bool true),
       ("message".data, .str msg),
       ("segments".data, .list
         [.dict
           [("id".data, .str "error_segment".data),
            ("content".data,
             .str ("<p class=".data ++ aposChar :: "text-red-600".data ++
               aposChar :: ">".data ++ msg ++ "</p>".data)),
            ("challenge".data, .dict
              [("type".data, .str "text_input".data),
               ("question".data,
                .str "What would you like to learn about?".data),
               ("correct_answer".data, .list
                 [.str "anything".data, .str "something".data,
                  .str "knowledge".data]),
               ("hint".data, .str "Try asking a different question".data),
               ("difficulty".data, .int 1)]),
            ("unlocked".data, .bool true),
            ("revealed".data, .bool false)]]),
       ("total_segments".data, .int 1),
       ("completion_stats".data, .dict
         [("unlocked_count".data, .int 1),
          ("revealed_count".data, .int 0),
          ("solved_count".data, .int 0)])],
    metadata := .dict
      [("error".data, .bool true),
       ("total_segments".data, .int 1),
       ("avg_difficulty".data, .int 1),
       ("complexity".data, .str "low".data),
       ("interaction_type".data, .str "puzzle_based".data)],
    css_classes := ["puzzle-based".data, "error".data] }

def puzzle_based_process (body : Chars → Prefs → RepResult)
    (content : Chars) (prefs : Prefs) : RepResult :=
  if !puzzle_validate_content content then
    puzzle_get_error_result "Content too short for puzzle generation".data
  else body content prefs

/-- A concrete body used to instantiate the guard theorems. -/
def trivialBody : Chars → Prefs → RepResult := fun c _ => get_error_result c c

theorem validate_false_of_short {content : Chars}
    (h : (pyStrip content).length < 10) : validate_content content = false := by
  unfold validate_content
  rw [decide_eq_true h, Bool.or_true, Bool.not_true]

theorem puzzle_validate_false_of_short {content : Chars}
    (h : (pyStrip content).length < 100) :
    puzzle_validate_content content = false := by
  unfold puzzle_validate_content
  rw [decide_eq_true h, Bool.or_true, Bool.not_true]

/-- C2: content below the minimum of a mode (10 stripped characters for the
seven generic modes, 100 for puzzle_based) makes `process` return that
error Result of that mode, whose metadata carries `error=true` and whose
content carries the message and a fallback payload (`fallback_content`
for the generic modes, an error `segments` payload for puzzle_based);
the processes are total functions, so no exception is possible. -/
theorem modes_short_content_error :
    ∀ content prefs cy env bodyP bodyC bodyK bodyZ,
      ((pyStrip content).length < 10 →
        plain_text_process bodyP content prefs =
          get_error_result "plain_text".data
            "Content too short for processing".data ∧
        color_coded_process bodyC content prefs =
          get_error_result "color_coded".data
            "Content too short for color coding".data ∧
        collapsible_concepts_process bodyK content prefs =
          get_error_result "collapsible_concepts".data
            "Content too short for concept extraction".data ∧
        kgProcess env content prefs =
          get_error_result "knowledge_graph".data
            "Content too short for knowledge graph generation".data ∧
        timelineProcess cy content prefs =
          get_error_result "timeline".data
            "Content too short for timeline generation".data ∧
        summaryProcess content prefs =
          get_error_result "summary".data
            "Content too short for summarization".data) ∧
      ((pyStrip content).length < 100 →
        puzzle_based_process bodyZ content prefs =
          puzzle_get_error_result
            "Content too short for puzzle generation".data) ∧
      (∀ m msg,
        (get_error_result m msg).metadata.dget "error".data =
          some (.bool true) ∧
        (get_error_result m msg).content.dget "message".data =
          some (.str msg) ∧
        (get_error_result m msg).content.dget "fallback_content".data =
          some (.str
            "Unable to process content for this representation mode.".data)) ∧
      (∀ msg,
        (puzzle_get_error_result msg).metadata.dget "error".data =
          some (.bool true) ∧
        (puzzle_get_error_result msg).content.dget "message".data =
          some (.str msg)) := by
  intro content prefs cy env bodyP bodyC bodyK bodyZ
  refine ⟨?_, ?_, ?_, ?_⟩
  · intro h
    have hv := validate_false_of_short h
    refine ⟨?_, ?_, ?_, ?_, ?_, ?_⟩
    · simp [plain_text_process, hv]
    · simp [color_coded_process, hv]
    · simp [collapsible_concepts_process, hv]
    · simp [kgProcess, hv]
    · simp [timelineProcess, hv]
    · simp [summaryProcess, hv]
  · intro h
    have hv := puzzle_validate_false_of_short h
    simp [puzzle_based_process, hv]
  · intro m msg
    exact ⟨rfl, rfl, rfl⟩
  · intro msg
    exact ⟨rfl, rfl⟩

/-- C2, witness: a 2-character content trips every guard. -/
theorem modes_short_content_error_witness :
    plain_text_process trivialBody "hi".data [] =
      get_error_result "plain_text".data
        "Content too short for processing".data ∧
    puzzle_based_process trivialBody "hi".data [] =
      puzzle_get_error_result
        "Content too short for puzzle generation".data ∧
    (get_error_result "plain_text".data "msg".data).metadata.dget
      "error".data = some (.bool true) :=
  ⟨((modes_short_content_error "hi".data [] 0 ⟨[], []⟩ trivialBody
      trivialBody trivialBody trivialBody).1 (by decide)).1,
   (modes_short_content_error "hi".data [] 0 ⟨[], []⟩ trivialBody
      trivialBody trivialBody trivialBody).2.1 (by decide),
   ((modes_short_content_error "hi".data [] 0 ⟨[], []⟩ trivialBody
      trivialBody trivialBody trivialBody).2.2.1 "plain_text".data
      "msg".data).1⟩


/-! ## The engine (`core/representations.py`, C1 and C7)

`RepresentationEngine.generate_representation` and its fourteen
handlers.  Every handler is a total function except `_generate_summary`,
whose `compression_ratio` divides by `len(content)` and therefore raises
`ZeroDivisionError` on empty content; `Except Unit` models that
exception.  No `try/except` appears anywhere in the engine. -/

structure EngResult where
  mode : Chars
  content : Val
  metadata : Val
  css_classes : List Chars
  javascript_code : Option Chars := none

/-- Python `content.replace(chr(10), "<br>")`. -/
def replace_newline_br (s : Chars) : Chars :=
  s.foldr (fun c acc => if c = '\n' then "<br>".data ++ acc else c :: acc) []

def _generate_plain_text (content : Chars) (_prefs : Prefs) : EngResult :=
  { mode := "plain_text".data,
    content := .dict
      [("text".data, .str content),
       ("formatted".data, .str (replace_newline_br content))],
    metadata := .dict
      [("word_count".data, .int (pyWords content).length),
       ("estimated_read_time".data,
        .str (natDigits ((pyWords content).length / 200 + 1) ++ " min".data))],
    css_classes := ["plain-text".data, "readable".data] }

/-- One sentence of `_extract_color_coded_sections`; the four lists are
facts, assumptions, examples, warnings. -/
def ccClassify (acc : List Chars × List Chars × List Chars × List Chars)
    (raw : Chars) : List Chars × List Chars × List Chars × List Chars :=
  let s := pyStrip raw
  if s.isEmpty then acc else
  let ls := lowerStr s
  if ["fact", "data", "research", "study", "evidence"].any
      (fun w => containsSub w.data ls) then
    (acc.1 ++ [s], acc.2.1, acc.2.2.1, acc.2.2.2)
  else if ["assume", "likely", "probably", "might", "could"].any
      (fun w => containsSub w.data ls) then
    (acc.1, acc.2.1 ++ [s], acc.2.2.1, acc.2.2.2)
  else if ["example", "instance", "such as", "like", "for example"].any
      (fun w => containsSub w.data ls) then
    (acc.1, acc.2.1, acc.2.2.1 ++ [s], acc.2.2.2)
  else if ["warning", "risk", "danger", "caution", "avoid"].any
      (fun w => containsSub w.data ls) then
    (acc.1, acc.2.1, acc.2.2.1, acc.2.2.2 ++ [s])
  else
    (acc.1 ++ [s], acc.2.1, acc.2.2.1, acc.2.2.2)

def _extract_color_coded_sections (content : Chars) :
    List (Chars × List Chars) :=
  let r := (splitSub ".".data content).foldl ccClassify ([], [], [], [])
  [("facts".data, r.1), ("assumptions".data, r.2.1),
   ("examples".data, r.2.2.1), ("warnings".data, r.2.2.2)]

/-- Python max over the section keys by list length; `max` keeps the
first of equals, in dict insertion order.  The `[] => "facts"` branch is
the source guard `if sections else "facts"`. -/
def maxKeyByLen (l : List (Chars × List Chars)) : Chars :=
  match l with
  | [] => "facts".data
  | p :: rest =>
    (rest.foldl (fun best q =>
      if best.2.length < q.2.length then q else best) p).1

def _generate_color_coded (content : Chars) (_prefs : Prefs) : EngResult :=
  let sections := _extract_color_coded_sections content
  { mode := "color_coded".data,
    content := .dict
      [("sections".data, .dict
         (sections.map (fun p => (p.1, Val.list (p.2.map Val.str))))),
       ("legend".data, .dict
         [("facts".data, .dict
            [("color".data, .str "blue".data),
             ("label".data, .str "Key Facts".data),
             ("icon".data, .str "📊".data)]),
          ("assumptions".data, .dict
            [("color".data, .str "yellow".data),
             ("label".data, .str "Assumptions".data),
             ("icon".data, .str "❓".data)]),
          ("examples".data, .dict
            [("color".data, .str "green".data),
             ("label".data, .str "Examples".data),
             ("icon".data, .str "💡".data)]),
          ("warnings".data, .dict
            [("color".data, .str "red".data),
             ("label".data, .str "Warnings/Risks".data),
             ("icon".data, .str "⚠️".data)])])],
    metadata := .dict
      [("sections_count".data, .int sections.length),
       ("dominant_type".data, .str (maxKeyByLen sections))],
    css_classes := ["color-coded".data, "with-legend".data] }

def _extract_hierarchical_concepts (content : Chars) : List Val :=
  (splitSub "\n\n".data content).enum.filterMap (fun pi =>
    if (pyStrip pi.2).isEmpty then none else
    let first := (splitSub ".".data pi.2).headD []
    let title := if 50 < first.length then first.take 50 ++ "...".data
      else first
    some (.dict
      [("id".data, .str ("concept_".data ++ natDigits pi.1)),
       ("title".data, .str title),
       ("content".data, .str (pyStrip pi.2)),
       ("level".data, .int 1),
       ("children".data, .list [])]))

/-- Python max of the concept levels with default 1. -/
def _get_max_depth (concepts : List Val) : Int :=
  match concepts.map (fun c =>
    match c.dget "level".data with
    | some (.int n) => n
    | _ => 1) with
  | [] => 1
  | x :: xs => xs.foldl max x

def _count_concepts (concepts : List Val) : Int :=
  concepts.length + (concepts.map (fun c =>
    match c.dget "children".data with
    | some (.list l) => (l.length : Int)
    | _ => 0)).foldl (· + ·) 0

def _generate_collapsible_concepts (content : Chars) (_prefs : Prefs) :
    EngResult :=
  let concepts := _extract_hierarchical_concepts content
  { mode := "collapsible_concepts".data,
    content := .dict
      [("concepts".data, .list concepts),
       ("max_depth".data, .int (_get_max_depth concepts))],
    metadata := .dict
      [("total_concepts".data, .int (_count_concepts concepts)),
       ("complexity".data, .str
         (if 5 < concepts.length then "high".data
          else if 2 < concepts.length then "medium".data
          else "low".data))],
    css_classes := ["collapsible-concepts".data, "hierarchical".data],
    javascript_code := some "initializeCollapsibleConcepts();".data }

structure EngEntity where
  id : Chars
  name : Chars
  etype : Chars
  importance : Int

/-- `_extract_entities_and_relationships`, entity part: the
capitalized-phrase regex, then iteration over `set(...)`.  A Python set
iterates in an unspecified implementation order; first-occurrence order
is one admissible order and is fixed here (no claim proved below
depends on the order). -/
def engineEntities (content : Chars) : List EngEntity :=
  let uniq := dedupFirst ((findall stepCapChain none content).map mvalRaw)
  uniq.enum.map (fun p =>
    ⟨"entity_".data ++ natDigits p.1, p.2, "concept".data,
     (countSub (lowerStr p.2) (lowerStr content) : Int)⟩)

def _generate_knowledge_graph (content : Chars) (_prefs : Prefs) :
    EngResult :=
  let entities := engineEntities content
  let relVals := (List.range (entities.length - 1)).map (fun i => Val.dict
    [("source".data, .str ("entity_".data ++ natDigits i)),
     ("target".data, .str ("entity_".data ++ natDigits (i + 1))),
     ("relationship".data, .str "relates_to".data),
     ("type".data, .str "conceptual".data)])
  { mode := "knowledge_graph".data,
    content := .dict
      [("graph_data".data, .dict
         [("nodes".data, .list (entities.map (fun e => Val.dict
            [("id".data, .str e.id), ("label".data, .str e.name),
             ("type".data, .str e.etype),
             ("description".data, .str []),
             ("size".data, .int (e.importance * 10))]))),
          ("edges".data, .list ((List.range (entities.length - 1)).map
            (fun i => Val.dict
              [("from".data, .str ("entity_".data ++ natDigits i)),
               ("to".data, .str ("entity_".data ++ natDigits (i + 1))),
               ("label".data, .str "relates_to".data),
               ("type".data, .str "conceptual".data)])))]),
       ("entities".data, .list (entities.map (fun e => Val.dict
          [("id".data, .str e.id), ("name".data, .str e.name),
           ("type".data, .str e.etype),
           ("importance".data, .int e.importance)]))),
       ("relationships".data, .list relVals)],
    metadata := .dict
      [("node_count".data, .int entities.length),
       ("edge_count".data, .int relVals.length),
       ("complexity".data, .str
         (if 10 < entities.length then "high".data else "medium".data))],
    css_classes := ["knowledge-graph".data, "interactive-viz".data],
    javascript_code := some "initializeKnowledgeGraph(graphData);".data }

/-- Lookahead for a period, a comma, or end of string; `$` in Python
also matches just before a terminal newline. -/
def lazyStop : Chars → Bool
  | [] => true
  | '.' :: _ => true
  | ',' :: _ => true
  | '\n' :: rest => rest.isEmpty
  | _ => false

/-- Lazy dot-plus up to the lookahead: the smallest non-empty
newline-free prefix after which `lazyStop` holds. -/
def lazyDotAux : Nat → Chars → Chars → Option (Chars × Chars)
  | 0, _, _ => none
  | _ + 1, _, [] => none
  | fuel + 1, acc, c :: cs =>
    if c = '\n' then none
    else if lazyStop cs then some (acc ++ [c], cs)
    else lazyDotAux fuel (acc ++ [c]) cs

/-- Backtracking greedy whitespace-plus: `j` is the number of
whitespace characters the quantifier currently keeps; it starts at the
full run and gives characters back one at a time. -/
def wsLazyAux (ws rest1 : Chars) : Nat → Option (Chars × Chars)
  | 0 => none
  | j + 1 =>
    let start := ws.drop (j + 1) ++ rest1
    match lazyDotAux start.length [] start with
    | some r => some r
    | none => wsLazyAux ws rest1 j

/-- Step function for a literal, whitespace-plus, then a lazy dot-plus
group bounded by the period-comma-end lookahead, with IGNORECASE
(`lit` in lower case): the analogy and comparison patterns. -/
def stepLitLazy (lit : Chars) (_prev : Option Char) (s : Chars) :
    Option (MVal × Nat) :=
  match matchCI lit s with
  | none => none
  | some (_, rest0) =>
    let ws := (takeWsRun rest0).1
    let rest1 := (takeWsRun rest0).2
    if ws.isEmpty then none else
    match wsLazyAux ws rest1 ws.length with
    | some (grp, after) => some (.one grp, s.length - after.length)
    | none => none

def _extract_analogies (content : Chars) : List Val :=
  (["like", "similar to", "analogous to", "imagine"].map String.data).foldr
    (fun lit acc =>
      ((findall (stepLitLazy lit) none content).map (fun m => Val.dict
        [("analogy".data, .str (pyStrip (mvalRaw m))),
         ("type".data, .str "comparison".data)])) ++ acc) []

/-- The creativity score `len(analogies) * 0.2` is embedded as the
exact rational fifth; the float value never reaches a comparison in any
claim. -/
def _generate_analogical (content : Chars) (_prefs : Prefs) : EngResult :=
  let analogies := _extract_analogies content
  { mode := "analogical".data,
    content := .dict
      [("primary_analogy".data, analogies.headD Val.null),
       ("all_analogies".data, .list analogies),
       ("original_content".data, .str content)],
    metadata := .dict
      [("analogy_count".data, .int analogies.length),
       ("creativity_score".data, .rat ⟨(analogies.length : Int), 5⟩)],
    css_classes := ["analogical".data, "creative".data] }

/-- `preferences.get(key, default)`. -/
def prefsGet (prefs : Prefs) (k d : Chars) : Chars :=
  ((prefs.find? (fun p => p.1 = k)).map Prod.snd).getD d

def _generate_persona_based (content : Chars) (prefs : Prefs) : EngResult :=
  { mode := "persona_based".data,
    content := .dict
      [("content".data, .str content),
       ("persona_style".data,
        .str (if containsSub "eli5".data (prefsGet prefs "mode".data [])
          then "eli5".data else "expert".data))],
    metadata := .dict
      [("complexity_level".data,
        .str (if containsSub "eli5".data (prefsGet prefs "mode".data [])
          then "beginner".data else "advanced".data)),
       ("target_audience".data,
        .str (prefsGet prefs "mode".data "general".data))],
    css_classes := ["persona-based".data,
      prefsGet prefs "mode".data "general".data] }

def _extract_narrative_elements (_content : Chars) : Val :=
  .dict
    [("setting".data, .str "Knowledge exploration".data),
     ("characters".data, .list [.str "User".data, .str "Information".data]),
     ("conflict".data, .str "Understanding complex concepts".data),
     ("resolution".data, .str "Clear comprehension".data)]

def _structure_into_acts (content : Chars) : List Val :=
  let paragraphs := splitSub "\n\n".data content
  let n := paragraphs.length
  [.dict
     [("act".data, .int 1), ("title".data, .str "Introduction".data),
      ("content".data, .str (joinSpace (paragraphs.take (n / 3))))],
   .dict
     [("act".data, .int 2), ("title".data, .str "Development".data),
      ("content".data,
       .str (joinSpace ((paragraphs.drop (n / 3)).take (2 * n / 3 - n / 3))))],
   .dict
     [("act".data, .int 3), ("title".data, .str "Resolution".data),
      ("content".data, .str (joinSpace (paragraphs.drop (2 * n / 3))))]]

def _generate_cinematic (content : Chars) (_prefs : Prefs) : EngResult :=
  { mode := "cinematic".data,
    content := .dict
      [("narrative".data, _extract_narrative_elements content),
       ("acts".data, .list (_structure_into_acts content)),
       ("dramatic_arc".data, .bool true)],
    metadata := .dict
      [("narrative_style".data, .str "dramatic".data),
       ("engagement_level".data, .str "high".data)],
    css_classes := ["cinematic".data, "narrative".data],
    javascript_code := some "initializeCinematicView();".data }

def _create_interactive_elements (_content : Chars) : List Val :=
  [.dict
     [("type".data, .str "question".data),
      ("content".data, .str "What would you like to explore further?".data),
      ("options".data, .list
        [.str "Details".data, .str "Examples".data,
         .str "Related Topics".data])],
   .dict
     [("type".data, .str "scenario".data),
      ("content".data, .str "Consider this situation...".data),
      ("interactive".data, .bool true)]]

def _extract_scenarios (_content : Chars) : List Val :=
  [.dict
     [("scenario".data, .str "Practical application".data),
      ("description".data,
       .str "How would you use this information?".data),
      ("options".data, .list
        [.str "Personal use".data, .str "Professional use".data,
         .str "Academic use".data])]]

def _generate_interactive (content : Chars) (_prefs : Prefs) : EngResult :=
  { mode := "interactive".data,
    content := .dict
      [("elements".data, .list (_create_interactive_elements content)),
       ("scenarios".data, .list (_extract_scenarios content))],
    metadata := .dict
      [("interaction_count".data,
        .int (_create_interactive_elements content).length),
       ("engagement_type".data, .str "hands_on".data)],
    css_classes := ["interactive".data, "engaging".data],
    javascript_code := some "initializeInteractiveElements();".data }

/-- Slash-date pattern of `_extract_timeline_events`: one or two
digits, slash, one or two digits, slash, four digits, inside word
boundaries. -/
def stepSlashDate (prev : Option Char) (s : Chars) : Option (MVal × Nat) :=
  if !bdry prev then none else
  let (d1, r1) := takeDigits s
  if d1.length = 0 || 2 < d1.length then none else
  match r1 with
  | '/' :: r2 =>
    let (d2, r3) := takeDigits r2
    if d2.length = 0 || 2 < d2.length then none else
    match r3 with
    | '/' :: r4 =>
      let (d3, r5) := takeDigits r4
      if d3.length = 4 && endBdry r5 then
        some (.one (d1 ++ '/' :: d2 ++ '/' :: d3),
          d1.length + d2.length + 6)
      else none
    | _ => none
  | _ => none

def monthNamesCS : List Chars :=
  (["January", "February", "March", "April", "May", "June", "July",
    "August", "September", "October", "November", "December"].map
    String.data)

/-- Month-name pattern of `_extract_timeline_events`: two capture
groups, case sensitive. -/
def stepMonthYearCS (prev : Option Char) (s : Chars) :
    Option (MVal × Nat) :=
  if !bdry prev then none else
  match monthNamesCS.find? (fun m => hasPrefix m s) with
  | none => none
  | some m =>
    let rest0 := s.drop m.length
    let ws := (takeWsRun rest0).1
    let rest1 := (takeWsRun rest0).2
    if ws.isEmpty then none else
    let (d, r2) := takeDigits rest1
    if d.length = 4 && endBdry r2 then
      some (.two m d, m.length + ws.length + 4)
    else none

def engineEventVal (d sentence : Chars) : Val :=
  .dict
    [("date".data, .str d), ("event".data, .str (pyStrip sentence)),
     ("importance".data, .int 1)]

def mvalFirst : MVal → Chars
  | .one a => a
  | .two a _ => a
  | .three a _ _ => a

/-- `_extract_timeline_events`: the first of the three date patterns
with a match wins per sentence; for the tuple-producing month pattern
`matches[0][0]` is the month name. -/
def _extract_timeline_events (content : Chars) : List Val :=
  (splitSub ".".data content).filterMap (fun sentence =>
    match findall stepYear none sentence with
    | m :: _ => some (engineEventVal (mvalRaw m) sentence)
    | [] =>
      match findall stepSlashDate none sentence with
      | m :: _ => some (engineEventVal (mvalRaw m) sentence)
      | [] =>
        match findall stepMonthYearCS none sentence with
        | m :: _ => some (engineEventVal (mvalFirst m) sentence)
        | [] => none)

/-- Engine timeline handler (the mode class of
`representations/timeline.py` is embedded separately as
`timelineProcess`).  The `date` key of an extracted event is always
present, so the `.getD .null` default is never taken. -/
def _generate_timeline_rep (content : Chars) (_prefs : Prefs) : EngResult :=
  let timeline_events := _extract_timeline_events content
  { mode := "timeline".data,
    content := .dict
      [("events".data, .list timeline_events),
       ("start_date".data,
        match timeline_events.head? with
        | some v => (v.dget "date".data).getD .null
        | none => .null),
       ("end_date".data,
        match timeline_events.getLast? with
        | some v => (v.dget "date".data).getD .null
        | none => .null)],
    metadata := .dict
      [("event_count".data, .int timeline_events.length),
       ("time_span".data, .str "variable".data)],
    css_classes := ["timeline".data, "chronological".data],
    javascript_code := some "initializeTimeline();".data }

def _extract_comparisons (content : Chars) : List Val :=
  (["compared to", "versus", "while", "however"].map String.data).foldr
    (fun lit acc =>
      ((findall (stepLitLazy lit) none content).map (fun m => Val.dict
        [("comparison".data, .str (pyStrip (mvalRaw m))),
         ("type".data, .str "contrast".data)])) ++ acc) []

def _extract_perspectives (_content : Chars) : List Val :=
  [.dict
     [("perspective".data, .str "Technical".data),
      ("content".data, .str "From a technical standpoint...".data)],
   .dict
     [("perspective".data, .str "Practical".data),
      ("content".data, .str "In practical terms...".data)]]

def _generate_comparison (content : Chars) (_prefs : Prefs) : EngResult :=
  let comparisons := _extract_comparisons content
  { mode := "comparison".data,
    content := .dict
      [("comparisons".data, .list comparisons),
       ("perspectives".data, .list (_extract_perspectives content))],
    metadata := .dict
      [("comparison_count".data, .int comparisons.length),
       ("perspective_count".data,
        .int (_extract_perspectives content).length)],
    css_classes := ["comparison".data, "multi-perspective".data] }

def _extract_key_points (content : Chars) : List Chars :=
  ((splitSub "\n\n".data content).filterMap (fun p =>
    if (pyStrip p).isEmpty then none
    else some (pyStrip ((splitSub ".".data p).headD [] ++ ".".data)))).take 5

/-- `_generate_summary` computes
`round(len(" ".join(key_points)) / len(content), 2)` over character
counts; the division raises `ZeroDivisionError` exactly when the
content is empty.  The float quotient is embedded as the exact
rational, rounded half-even like Python `round`. -/
def _generate_summary (content : Chars) (_prefs : Prefs) :
    Except Unit EngResult :=
  if content.length = 0 then .error () else
  let key_points := _extract_key_points content
  .ok
    { mode := "summary".data,
      content := .dict
        [("key_points".data, .list (key_points.map Val.str)),
         ("tldr".data,
          .str (key_points.headD "No summary available".data)),
         ("full_content".data, .str content)],
      metadata := .dict
        [("compression_ratio".data,
          .rat (pyRound2 ⟨((joinSpace key_points).length : Int),
            (content.length : Int)⟩)),
         ("key_point_count".data, .int key_points.length)],
      css_classes := ["summary".data, "condensed".data] }

def _create_detailed_sections (content : Chars) : List Val :=
  (splitSub "\n\n".data content).enum.filterMap (fun pi =>
    if (pyStrip pi.2).isEmpty then none
    else some (.dict
      [("title".data, .str ("Section ".data ++ natDigits (pi.1 + 1))),
       ("content".data, .str (pyStrip pi.2)),
       ("analysis".data, .str "Detailed analysis would go here".data),
       ("related_concepts".data, .list [])]))

def _generate_detailed (content : Chars) (_prefs : Prefs) : EngResult :=
  let sections := _create_detailed_sections content
  { mode := "detailed".data,
    content := .dict
      [("sections".data, .list sections),
       ("full_analysis".data, .bool true)],
    metadata := .dict
      [("section_count".data, .int sections.length),
       ("detail_level".data, .str "comprehensive".data)],
    css_classes := ["detailed".data, "comprehensive".data] }

def availableModeIds : List Chars :=
  ["plain_text".data, "color_coded".data, "collapsible_concepts".data,
   "knowledge_graph".data, "analogical".data, "persona_eli5".data,
   "persona_expert".data, "persona_layman".data, "cinematic".data,
   "interactive".data, "timeline".data, "comparison".data,
   "summary".data, "detailed".data]

def personaModeIds : List Chars :=
  ["persona_eli5".data, "persona_expert".data, "persona_layman".data]

/-- `if mode not in self.available_modes: mode = "plain_text"`. -/
def effectiveEngineMode (mode : Chars) : Chars :=
  if memStr mode availableModeIds then mode else "plain_text".data

/-- The `handler_map` dispatch; the final branch is the default of
`handler_map.get(mode, self._generate_plain_text)`, unreachable once
the mode has been normalised. -/
def handlerRun (m content : Chars) (prefs : Prefs) : Except Unit EngResult :=
  if m = "plain_text".data then .ok (_generate_plain_text content prefs)
  else if m = "color_coded".data then .ok (_generate_color_coded content prefs)
  else if m = "collapsible_concepts".data then
    .ok (_generate_collapsible_concepts content prefs)
  else if m = "knowledge_graph".data then
    .ok (_generate_knowledge_graph content prefs)
  else if m = "analogical".data then .ok (_generate_analogical content prefs)
  else if m = "persona_eli5".data then
    .ok (_generate_persona_based content prefs)
  else if m = "persona_expert".data then
    .ok (_generate_persona_based content prefs)
  else if m = "persona_layman".data then
    .ok (_generate_persona_based content prefs)
  else if m = "cinematic".data then .ok (_generate_cinematic content prefs)
  else if m = "interactive".data then .ok (_generate_interactive content prefs)
  else if m = "timeline".data then .ok (_generate_timeline_rep content prefs)
  else if m = "comparison".data then .ok (_generate_comparison content prefs)
  else if m = "summary".data then _generate_summary content prefs
  else if m = "detailed".data then .ok (_generate_detailed content prefs)
  else .ok (_generate_plain_text content prefs)

def generate_representation (content mode : Chars) (prefs : Prefs) :
    Except Unit EngResult :=
  handlerRun (effectiveEngineMode mode) content prefs

/-! ## C1 and C7 -/

theorem memStr_eq_false {x : Chars} {l : List Chars}
    (h : ∀ y ∈ l, y ≠ x) : memStr x l = false := by
  rw [Bool.eq_false_iff]
  intro hmem
  unfold memStr at hmem
  rw [List.any_eq_true] at hmem
  obtain ⟨y, hy, he⟩ := hmem
  exact h y hy (of_decide_eq_true he)

set_option maxHeartbeats 1600000 in
theorem handlerRun_error_iff (m c : Chars) (p : Prefs) :
    handlerRun m c p = .error () ↔ (m = "summary".data ∧ c = []) := by
  unfold handlerRun
  by_cases h1 : m = "plain_text".data
  · rw [if_pos h1]
    exact ⟨fun h => Except.noConfusion h,
      fun hp => absurd (h1.symm.trans hp.1) (by decide)⟩
  rw [if_neg h1]
  by_cases h2 : m = "color_coded".data
  · rw [if_pos h2]
    exact ⟨fun h => Except.noConfusion h,
      fun hp => absurd (h2.symm.trans hp.1) (by decide)⟩
  rw [if_neg h2]
  by_cases h3 : m = "collapsible_concepts".data
  · rw [if_pos h3]
    exact ⟨fun h => Except.noConfusion h,
      fun hp => absurd (h3.symm.trans hp.1) (by decide)⟩
  rw [if_neg h3]
  by_cases h4 : m = "knowledge_graph".data
  · rw [if_pos h4]
    exact ⟨fun h => Except.noConfusion h,
      fun hp => absurd (h4.symm.trans hp.1) (by decide)⟩
  rw [if_neg h4]
  by_cases h5 : m = "analogical".data
  · rw [if_pos h5]
    exact ⟨fun h => Except.noConfusion h,
      fun hp => absurd (h5.symm.trans hp.1) (by decide)⟩
  rw [if_neg h5]
  by_cases h6 : m = "persona_eli5".data
  · rw [if_pos h6]
    exact ⟨fun h => Except.noConfusion h,
      fun hp => absurd (h6.symm.trans hp.1) (by decide)⟩
  rw [if_neg h6]
  by_cases h7 : m = "persona_expert".data
  · rw [if_pos h7]
    exact ⟨fun h => Except.noConfusion h,
      fun hp => absurd (h7.symm.trans hp.1) (by decide)⟩
  rw [if_neg h7]
  by_cases h8 : m = "persona_layman".data
  · rw [if_pos h8]
    exact ⟨fun h => Except.noConfusion h,
      fun hp => absurd (h8.symm.trans hp.1) (by decide)⟩
  rw [if_neg h8]
  by_cases h9 : m = "cinematic".data
  · rw [if_pos h9]
    exact ⟨fun h => Except.noConfusion h,
      fun hp => absurd (h9.symm.trans hp.1) (by decide)⟩
  rw [if_neg h9]
  by_cases h10 : m = "interactive".data
  · rw [if_pos h10]
    exact ⟨fun h => Except.noConfusion h,
      fun hp => absurd (h10.symm.trans hp.1) (by decide)⟩
  rw [if_neg h10]
  by_cases h11 : m = "timeline".data
  · rw [if_pos h11]
    exact ⟨fun h => Except.noConfusion h,
      fun hp => absurd (h11.symm.trans hp.1) (by decide)⟩
  rw [if_neg h11]
  by_cases h12 : m = "comparison".data
  · rw [if_pos h12]
    exact ⟨fun h => Except.noConfusion h,
      fun hp => absurd (h12.symm.trans hp.1) (by decide)⟩
  rw [if_neg h12]
  by_cases h13 : m = "summary".data
  · rw [if_pos h13]
    unfold _generate_summary
    by_cases hc : c.length = 0
    · rw [if_pos hc]
      exact ⟨fun _ => ⟨h13, List.length_eq_zero.mp hc⟩, fun _ => rfl⟩
    · rw [if_neg hc]
      exact ⟨fun h => Except.noConfusion h,
        fun hp => absurd (show c.length = 0 by rw [hp.2]; rfl) hc⟩
  rw [if_neg h13]
  by_cases h14 : m = "detailed".data
  · rw [if_pos h14]
    exact ⟨fun h => Except.noConfusion h,
      fun hp => absurd (h14.symm.trans hp.1) (by decide)⟩
  rw [if_neg h14]
  exact ⟨fun h => Except.noConfusion h, fun hp => absurd hp.1 h13⟩

theorem effectiveEngineMode_eq_summary (mode : Chars) :
    effectiveEngineMode mode = "summary".data ↔ mode = "summary".data := by
  unfold effectiveEngineMode
  by_cases h : memStr mode availableModeIds = true
  · rw [if_pos h]
  · rw [if_neg h]
    constructor
    · intro he; exact absurd he (by decide)
    · rintro rfl; exact absurd (by decide) h

/-- C1: the engine has no try or except, so an exception inside a
handler propagates to the caller.  Corrected statement: the only
reachable exception is the ZeroDivisionError of the summary handler,
hence generate_representation raises exactly when the requested mode is
"summary" and the content is empty, and returns a Result otherwise. -/
theorem engine_raises_iff_empty_summary :
    ∀ content mode prefs,
      generate_representation content mode prefs = .error () ↔
        (mode = "summary".data ∧ content = []) := by
  intro c mode p
  unfold generate_representation
  rw [handlerRun_error_iff, effectiveEngineMode_eq_summary]

/-- C1, counterexample to the spec: requesting the summary mode on
empty content makes the engine itself raise. -/
theorem engine_summary_empty_raises :
    generate_representation [] "summary".data [] = .error () := rfl

/-- The mode id the engine actually stamps on its Result: the
normalised requested id, except that the three persona ids collapse to
"persona_based". -/
def engineModeOf (mode : Chars) : Chars :=
  if memStr (effectiveEngineMode mode) personaModeIds then
    "persona_based".data
  else effectiveEngineMode mode

theorem effectiveEngineMode_mem (mode : Chars) :
    memStr (effectiveEngineMode mode) availableModeIds = true := by
  unfold effectiveEngineMode
  by_cases h : memStr mode availableModeIds = true
  · rw [if_pos h]; exact h
  · rw [if_neg h]; decide

set_option maxHeartbeats 1600000 in
theorem handlerRun_mode (m c : Chars) (p : Prefs) (r : EngResult)
    (h : handlerRun m c p = .ok r) :
    r.mode = if memStr m personaModeIds then "persona_based".data
      else if memStr m availableModeIds then m
      else "plain_text".data := by
  unfold handlerRun at h
  by_cases h1 : m = "plain_text".data
  · rw [if_pos h1] at h
    injection h with he; subst he; subst h1; rfl
  rw [if_neg h1] at h
  by_cases h2 : m = "color_coded".data
  · rw [if_pos h2] at h
    injection h with he; subst he; subst h2; rfl
  rw [if_neg h2] at h
  by_cases h3 : m = "collapsible_concepts".data
  · rw [if_pos h3] at h
    injection h with he; subst he; subst h3; rfl
  rw [if_neg h3] at h
  by_cases h4 : m = "knowledge_graph".data
  · rw [if_pos h4] at h
    injection h with he; subst he; subst h4; rfl
  rw [if_neg h4] at h
  by_cases h5 : m = "analogical".data
  · rw [if_pos h5] at h
    injection h with he; subst he; subst h5; rfl
  rw [if_neg h5] at h
  by_cases h6 : m = "persona_eli5".data
  · rw [if_pos h6] at h
    injection h with he; subst he; subst h6; rfl
  rw [if_neg h6] at h
  by_cases h7 : m = "persona_expert".data
  · rw [if_pos h7] at h
    injection h with he; subst he; subst h7; rfl
  rw [if_neg h7] at h
  by_cases h8 : m = "persona_layman".data
  · rw [if_pos h8] at h
    injection h with he; subst he; subst h8; rfl
  rw [if_neg h8] at h
  by_cases h9 : m = "cinematic".data
  · rw [if_pos h9] at h
    injection h with he; subst he; subst h9; rfl
  rw [if_neg h9] at h
  by_cases h10 : m = "interactive".data
  · rw [if_pos h10] at h
    injection h with he; subst he; subst h10; rfl
  rw [if_neg h10] at h
  by_cases h11 : m = "timeline".data
  · rw [if_pos h11] at h
    injection h with he; subst he; subst h11; rfl
  rw [if_neg h11] at h
  by_cases h12 : m = "comparison".data
  · rw [if_pos h12] at h
    injection h with he; subst he; subst h12; rfl
  rw [if_neg h12] at h
  by_cases h13 : m = "summary".data
  · rw [if_pos h13] at h
    unfold _generate_summary at h
    by_cases hc : c.length = 0
    · rw [if_pos hc] at h; exact Except.noConfusion h
    · rw [if_neg hc] at h
      dsimp only at h
      injection h with he; subst he; subst h13; rfl
  rw [if_neg h13] at h
  by_cases h14 : m = "detailed".data
  · rw [if_pos h14] at h
    injection h with he; subst he; subst h14; rfl
  rw [if_neg h14] at h
  injection h with he; subst he
  have hpf : memStr m personaModeIds = false := by
    refine memStr_eq_false ?_
    intro y hy
    simp only [personaModeIds, List.mem_cons, List.not_mem_nil,
      or_false] at hy
    rcases hy with rfl | rfl | rfl
    · exact fun he2 => h6 he2.symm
    · exact fun he2 => h7 he2.symm
    · exact fun he2 => h8 he2.symm
  have hif : memStr m availableModeIds = false := by
    refine memStr_eq_false ?_
    intro y hy
    simp only [availableModeIds, List.mem_cons, List.not_mem_nil,
      or_false] at hy
    rcases hy with rfl | rfl | rfl | rfl | rfl | rfl | rfl | rfl | rfl |
      rfl | rfl | rfl | rfl | rfl
    · exact fun he2 => h1 he2.symm
    · exact fun he2 => h2 he2.symm
    · exact fun he2 => h3 he2.symm
    · exact fun he2 => h4 he2.symm
    · exact fun he2 => h5 he2.symm
    · exact fun he2 => h6 he2.symm
    · exact fun he2 => h7 he2.symm
    · exact fun he2 => h8 he2.symm
    · exact fun he2 => h9 he2.symm
    · exact fun he2 => h10 he2.symm
    · exact fun he2 => h11 he2.symm
    · exact fun he2 => h12 he2.symm
    · exact fun he2 => h13 he2.symm
    · exact fun he2 => h14 he2.symm
  rw [hpf, hif]
  simp [_generate_plain_text]

/-- C7: the mode field of an engine Result is the requested id, with
"plain_text" substituted for unknown ids — except that the three
persona modes are stamped "persona_based" (their shared handler
hard-codes that id), so the spec sentence fails for them; this is the
corrected statement. -/
theorem engine_mode_field :
    ∀ content mode prefs r,
      generate_representation content mode prefs = .ok r →
      r.mode = engineModeOf mode := by
  intro c mode p r h
  unfold generate_representation at h
  have h2 := handlerRun_mode _ _ _ _ h
  rw [h2]
  unfold engineModeOf
  by_cases hp : memStr (effectiveEngineMode mode) personaModeIds = true
  · rw [if_pos hp, if_pos hp]
  · rw [if_neg hp, if_neg hp, if_pos (effectiveEngineMode_mem mode)]

/-- C7, witness: the interactive mode keeps its own id. -/
theorem engine_mode_field_witness :
    (_generate_interactive "Interactive check.".data []).mode =
      engineModeOf "interactive".data :=
  engine_mode_field "Interactive check.".data "interactive".data []
    (_generate_interactive "Interactive check.".data []) rfl

/-- C7, counterexample to the spec: requesting "persona_eli5" returns a
Result stamped "persona_based", which is neither the requested id nor
the "plain_text" fallback. -/
theorem engine_persona_mode_cex :
    (generate_representation "Personas here.".data "persona_eli5".data
        []).toOption.map EngResult.mode = some "persona_based".data ∧
    ("persona_based".data ≠ "persona_eli5".data) ∧
    ("persona_based".data ≠ "plain_text".data) :=
  ⟨rfl, by decide, by decide⟩

end ReprSpec
